import Mathlib

/-!
Verification of the Jingle/SDP translator (modules/sdp/SDP.js).

The JavaScript class SDP is embedded shallowly: its string state becomes a Lean

structure over `String`, XML elements become a tree type `Elem`, the Strophe
builder becomes a cursor into such a tree, and each method becomes a Lean
function. JavaScript string primitives (split, startsWith, substring) are
modelled by executable character-list functions so that the kernel can evaluate
them. Helpers from SDPUtil.js (whose source is not part of this tree) are
modelled from the specification of the line codec, each marked in its doc
comment.
-/

/-- Drop of the first n characters of a string, modelling the JavaScript
substring(n) and substr(n) operations. -/
def sdrop (s : String) (n : Nat) : String := ⟨s.data.drop n⟩

/-- Test whether the string p begins the string s, modelling the JavaScript
substring(0, n) comparison and startsWith. -/
def sStartsWith (p s : String) : Bool := p.data.isPrefixOf s.data

/-- Concatenation of a list of strings, modelling the JavaScript join with the
empty separator. -/
def sjoin (l : List String) : String := ⟨(l.map String.data).flatten⟩

/-- Join with a separator, modelling the JavaScript array join. -/
def sintercalate (sep : String) (l : List String) : String :=
  ⟨List.intercalate sep.data (l.map String.data)⟩

/-- Lower-casing of a string, modelling the JavaScript toLowerCase on the ASCII
tokens this translator compares. -/
def sToLower (s : String) : String := ⟨s.data.map Char.toLower⟩

/-- Fuel-driven splitting of a character list on a separator, taking the
leftmost match first, mirroring the JavaScript String split semantics for a
nonempty separator. The fuel only needs to reach the length of the list. -/
def splitCh (sep : List Char) : Nat → List Char → List (List Char)
  | _, [] => [[]]
  | 0, l => [l]
  | fuel+1, c :: rest =>
    if sep.isPrefixOf (c :: rest) then
      [] :: splitCh sep fuel (rest.drop (sep.length - 1))
    else
      (splitCh sep fuel rest).modifyHead (fun h => c :: h)

/-- JavaScript String split. A split on the empty separator is never performed
by the translator and is mapped to the identity shape. -/
def jsSplit (sep s : String) : List String :=
  if sep.data.isEmpty then [s]
  else (splitCh sep.data s.data.length s.data).map (fun l => ⟨l⟩)

/-- Substring search on character lists, modelling the JavaScript includes and
indexOf tests. -/
def hasSubCh (sub : List Char) : List Char → Bool
  | [] => sub.isEmpty
  | c :: rest => sub.isPrefixOf (c :: rest) || hasSubCh sub rest

/-- Substring containment on strings. -/
def containsSub (sub s : String) : Bool := hasSubCh sub.data s.data

/-- Truthiness of an optional string attribute under the JavaScript conditional:
a missing attribute and the empty string are both falsy. -/
def jsTruthy : Option String → Bool
  | none => false
  | some s => s ≠ ""

/-- State of one SDP translator object: the session header block, the ordered
media section blocks, the raw serialized text, the p2p flag and the
per-instance toggles. The field usesRidsForSimulcast stands for the ambient
browser capability predicate consulted during conversion, and initialLastN for
the optional numeric hint threaded into generated video content metadata. -/
structure SDPState where
  session : String
  media : List String
  raw : String
  isP2P : Bool
  failICE : Bool
  removeTcpCandidates : Bool
  removeUdpCandidates : Bool
  initialLastN : Option Int
  usesRidsForSimulcast : Bool
deriving Repr, DecidableEq

/-- Re-delimits section blocks produced by splitting on the media delimiter:
every block regains its leading media-line marker, and every block except the
last its trailing CRLF, as in the constructor loop of SDP.js. -/
def redelimit : List String → List String
  | [] => []
  | [p] => ["m=" ++ p]
  | p :: q :: rest => ("m=" ++ p ++ "\r\n") :: redelimit (q :: rest)

/-- Constructor of the SDP object (SDP.js lines 26 to 53): split the text on
the CRLF-media delimiter, re-delimit the media blocks, keep the first block
plus a CRLF as the session header, and store the header concatenated with the
sections as the raw text. All toggles start cleared. -/
def SDP.construct (sdp : String) (isP2P : Bool) : SDPState :=
  let parts := jsSplit "\r\nm=" sdp
  let session := parts.headD "" ++ "\r\n"
  let media := redelimit parts.tail
  { session := session, media := media, raw := session ++ sjoin media,
    isP2P := isP2P, failICE := false, removeTcpCandidates := false,
    removeUdpCandidates := false, initialLastN := none, usesRidsForSimulcast := false }

/-- XML element tree standing for the DOM and stanza-builder trees of the
source: tag, ordered attribute list, ordered children, text content. -/
inductive Elem where
  | mk (tag : String) (attrs : List (String × String)) (children : List Elem) (text : String)

/-- Tag of an element. -/
def Elem.tag : Elem → String
  | .mk t _ _ _ => t

/-- Attribute list of an element. -/
def Elem.attrList : Elem → List (String × String)
  | .mk _ a _ _ => a

/-- Children of an element. -/
def Elem.children : Elem → List Elem
  | .mk _ _ cs _ => cs

/-- Text content of an element. -/
def Elem.text : Elem → String
  | .mk _ _ _ x => x

/-- Attribute lookup, modelling getAttribute and the jQuery attr on a single
element: the first binding of the name, if any. -/
def Elem.attr? (e : Elem) (name : String) : Option String :=
  (e.attrList.find? (fun kv => kv.1 = name)).map (fun kv => kv.2)

/-- Attribute presence, modelling hasAttribute. -/
def Elem.hasAttr (e : Elem) (name : String) : Bool := (e.attr? name).isSome

/-- Appends children to an element, modelling DOM append. -/
def Elem.addChildren (e : Elem) (cs : List Elem) : Elem :=
  .mk e.tag e.attrList (e.children ++ cs) e.text

/-- Direct children of each element of a jQuery set matching a tag, modelling
the child selector without a namespace test. -/
def jqChildren (s : List Elem) (tag : String) : List Elem :=
  (s.map (fun e => e.children.filter (fun c => c.tag = tag))).flatten

/-- Direct children of each element of a jQuery set matching a tag and an
xmlns attribute, modelling the child selector with a namespace test. -/
def jqChildrenX (s : List Elem) (tag xmlns : String) : List Elem :=
  (s.map (fun e => e.children.filter
    (fun c => c.tag = tag && c.attr? "xmlns" = some xmlns))).flatten

/-- Attribute of the first element of a jQuery set, modelling the jQuery attr
getter. -/
def jqAttr (s : List Elem) (name : String) : Option String :=
  match s with
  | [] => none
  | e :: _ => e.attr? name

/-- Keeps the attribute pairs whose value is present, modelling the skipping of
undefined attribute values by the stanza element constructor. -/
def optAttrs (l : List (String × Option String)) : List (String × String) :=
  l.filterMap (fun kv => kv.2.map (fun v => (kv.1, v)))

/-- Namespace constants of the XMPP extension protocols used by the translator
(the defining module is not part of this tree; the exact values only need to
be distinct). -/
def XEPns (k : String) : String := "urn:xmpp:" ++ k

/-- Bundle grouping namespace. -/
def XEP.BUNDLE_MEDIA : String := XEPns "jingle:apps:grouping:0"

/-- ICE UDP transport namespace. -/
def XEP.ICE_UDP_TRANSPORT : String := XEPns "jingle:transports:ice-udp:1"

/-- DTLS SRTP fingerprint namespace. -/
def XEP.DTLS_SRTP : String := XEPns "jingle:apps:dtls:0"

/-- SCTP data channel namespace. -/
def XEP.SCTP_DATA_CHANNEL : String := XEPns "jingle:transports:dtls-sctp:1"

/-- RTP media description namespace. -/
def XEP.RTP_MEDIA : String := XEPns "jingle:apps:rtp:1"

/-- RTP header extension namespace. -/
def XEP.RTP_HEADER_EXTENSIONS : String := XEPns "jingle:apps:rtp:rtp-hdrext:0"

/-- RTCP feedback namespace. -/
def XEP.RTP_FEEDBACK : String := XEPns "jingle:apps:rtp:rtcp-fb:0"

/-- Source attribute (ssma) namespace. -/
def XEP.SOURCE_ATTRIBUTES : String := XEPns "jingle:apps:rtp:ssma:0"

/-- First space-separated token of a string. -/
def firstToken (s : String) : String := (jsSplit " " s).headD ""

/-- Remainder of a string after the first occurrence of a key, or none when the
key does not occur. -/
def afterFirst (key s : String) : Option String :=
  match jsSplit key s with
  | [] => none
  | [_] => none
  | _ :: rest => some (sintercalate key rest)

/-- Modelled from the spec: line-prefix lookup of the line codec
(SDPUtil.findLine, source file not included). Searches the lines of the
haystack for the first one beginning with the needle; when none is found and a
session part is supplied, the session part is searched instead. -/
def SDPUtil.findLine (haystack needle : String) (sessionpart : Option String) : Option String :=
  match (jsSplit "\r\n" haystack).find? (fun l => sStartsWith needle l) with
  | some l => some l
  | none => sessionpart.bind (fun sp => (jsSplit "\r\n" sp).find? (fun l => sStartsWith needle l))

/-- Modelled from the spec: multi-line prefix lookup of the line codec
(SDPUtil.findLines, source file not included). All lines of the haystack
beginning with the needle; when there are none and a session part is supplied,
the matching lines of the session part instead. -/
def SDPUtil.findLines (haystack needle : String) (sessionpart : Option String) : List String :=
  let ls := (jsSplit "\r\n" haystack).filter (fun l => sStartsWith needle l)
  if ls = [] then
    match sessionpart with
    | some sp => (jsSplit "\r\n" sp).filter (fun l => sStartsWith needle l)
    | none => []
  else ls

/-- Modelled from the spec: mid-line parser of the line codec (the mid value
after the a=mid: marker). -/
def SDPUtil.parseMID (line : String) : String := sdrop line 6

/-- Media line fields, as produced by the media-line parser of the line
codec. -/
structure MLineData where
  media : String
  port : String
  proto : String
  fmt : List String
deriving Repr, DecidableEq

/-- Modelled from the spec: media-line parser of the line codec
(SDPUtil.parseMLine): media type, port and protocol token, then the
payload-format identifiers. -/
def SDPUtil.parseMLine (line : String) : MLineData :=
  let parts := jsSplit " " (sdrop line 2)
  { media := parts.headD "", port := (parts.drop 1).headD "",
    proto := (parts.drop 2).headD "", fmt := parts.drop 3 }

/-- Modelled from the spec: media-line builder of the line codec
(SDPUtil.buildMLine). The media field mirrors a jQuery attr result, whose
missing value is coerced to the undefined token by the template string. -/
def SDPUtil.buildMLine (media : Option String) (port proto : String) (fmt : List String) : String :=
  "m=" ++ media.getD "undefined" ++ " " ++ port ++ " " ++ proto ++ " " ++ sintercalate " " fmt

/-- Modelled from the spec: ICE username-fragment line builder
(SDPUtil.buildICEUfrag). -/
def SDPUtil.buildICEUfrag (ufrag : String) : String := "a=ice-ufrag:" ++ ufrag

/-- Modelled from the spec: ICE password line builder (SDPUtil.buildICEPwd). -/
def SDPUtil.buildICEPwd (pwd : String) : String := "a=ice-pwd:" ++ pwd

/-- Modelled from the spec: parameter-value sanitizer of the line codec
(SDPUtil.filterSpecialChars), removing the special characters from a source
parameter value. -/
def SDPUtil.filterSpecialChars (text : String) : String :=
  ⟨text.data.filter (fun c => !(c = '\\' || c = '/' || c = ',' || c = '+'))⟩

/-- Modelled from the spec: format-map line builder of the line codec
(SDPUtil.buildRTPMap): the payload id, encoding name, clock rate and optional
channel count of a payload-type element. Missing attributes are coerced like
null values in a template string. -/
def SDPUtil.buildRTPMap (payloadType : Elem) : String :=
  "a=rtpmap:" ++ (payloadType.attr? "id").getD "null" ++ " "
    ++ (payloadType.attr? "name").getD "null" ++ "/"
    ++ (payloadType.attr? "clockrate").getD "null"
    ++ (match payloadType.attr? "channels" with
        | some ch => if ch ≠ "1" then "/" ++ ch else ""
        | none => "")

/-- Modelled from the spec: candidate line builder of the line codec
(SDPUtil.candidateFromJingle), emitting one candidate attribute line with a
trailing CRLF from the attributes of a candidate element. -/
def SDPUtil.candidateFromJingle (c : Elem) : String :=
  "a=candidate:" ++ (c.attr? "foundation").getD "null" ++ " "
    ++ (c.attr? "component").getD "null" ++ " "
    ++ (c.attr? "protocol").getD "null" ++ " "
    ++ (c.attr? "priority").getD "null" ++ " "
    ++ (c.attr? "ip").getD "null" ++ " "
    ++ (c.attr? "port").getD "null" ++ " typ "
    ++ (c.attr? "type").getD "null"
    ++ (match c.attr? "generation" with
        | some g => " generation " ++ g
        | none => "") ++ "\r\n"

/-- Feedback line fields produced by the feedback-line parser. -/
structure RTCPFBData where
  pt : String
  type : String
  params : List String
deriving Repr, DecidableEq

/-- Modelled from the spec: feedback-line parser of the line codec
(SDPUtil.parseRTCPFB): payload id, feedback type, remaining parameter
tokens. -/
def SDPUtil.parseRTCPFB (line : String) : RTCPFBData :=
  let parts := jsSplit " " (sdrop line 10)
  { pt := parts.headD "", type := (parts.drop 1).headD "", params := parts.drop 2 }

/-- Modelled from the spec: ssrc-line grouping of the line codec
(SDPUtil.parseSSRC): an association from each ssrc identifier to its attribute
lines, in first-seen order. -/
def SDPUtil.parseSSRC (mediaItem : String) : List (String × List String) :=
  (SDPUtil.findLines mediaItem "a=ssrc:" none).foldl (fun acc line =>
    let id := firstToken (sdrop line 7)
    if acc.any (fun kv => kv.1 = id) then
      acc.map (fun kv => if kv.1 = id then (kv.1, kv.2 ++ [line]) else kv)
    else acc ++ [(id, [line])]) []

/-- Modelled from the spec: recovery of the source name from the parameter
lines of one ssrc (SDPUtil.parseSourceNameLine). -/
def SDPUtil.parseSourceNameLine (lines : List String) : Option String :=
  lines.findSome? (fun l => (afterFirst "name:" l).map firstToken)

/-- Modelled from the spec: recovery of the video type from the parameter lines
of one ssrc (SDPUtil.parseVideoTypeLine). -/
def SDPUtil.parseVideoTypeLine (lines : List String) : Option String :=
  lines.findSome? (fun l => (afterFirst "videoType:" l).map firstToken)

/-- Modelled from the spec: recovery of the stream id from the parameter lines
of one ssrc (SDPUtil.parseMSIDAttribute), everything after the msid marker. -/
def SDPUtil.parseMSIDAttribute (lines : List String) : Option String :=
  lines.findSome? (fun l => afterFirst "msid:" l)

/-- Source-group line fields. -/
structure SSRCGroupData where
  semantics : String
  ssrcs : List String
deriving Repr, DecidableEq

/-- Modelled from the spec: source-group line parser of the line codec
(SDPUtil.parseSSRCGroupLine): the semantics tag after the marker, then the
member identifiers. -/
def SDPUtil.parseSSRCGroupLine (line : String) : SSRCGroupData :=
  { semantics := firstToken (sdrop line 13), ssrcs := (jsSplit " " line).drop 1 }

/-- Modelled from the spec: format-parameters line parser of the line codec
(SDPUtil.parseFmtp): one name/value attribute list per parameter, the value
omitted when the pair has no equals sign. -/
def SDPUtil.parseFmtp (line : String) : List (List (String × String)) :=
  let rest := (afterFirst " " line).getD ""
  (jsSplit ";" rest).map (fun kv =>
    match jsSplit "=" kv with
    | [] => [("name", "")]
    | [n] => [("name", n)]
    | n :: vs => [("name", n), ("value", sintercalate "=" vs)])

/-- Modelled from the spec: format-map line parser of the line codec
(SDPUtil.parseRTPMap): payload id, encoding name, clock rate and channel count
(defaulting to one). -/
def SDPUtil.parseRTPMap (line : String) : List (String × String) :=
  let parts := jsSplit " " (sdrop line 9)
  let sub := jsSplit "/" ((parts.drop 1).headD "")
  let ch := (sub.drop 2).headD ""
  [("id", parts.headD ""), ("name", sub.headD ""), ("clockrate", (sub.drop 1).headD ""),
   ("channels", if ch = "" then "1" else ch)]

/-- Extension-mapping line fields. -/
structure ExtmapData where
  value : String
  uri : String
  direction : Option String
deriving Repr, DecidableEq

/-- Modelled from the spec: extension-mapping line parser of the line codec
(SDPUtil.parseExtmap): the numeric id, an optional direction qualifier after a
slash, and the uri. -/
def SDPUtil.parseExtmap (line : String) : ExtmapData :=
  let parts := jsSplit " " (sdrop line 9)
  let vparts := jsSplit "/" (parts.headD "")
  { value := vparts.headD "",
    direction := if 2 ≤ vparts.length then some ((vparts.drop 1).headD "") else none,
    uri := (parts.drop 1).headD "" }

/-- Fingerprint line fields. -/
structure FingerprintData where
  hash : String
  fingerprint : String
deriving Repr, DecidableEq

/-- Modelled from the spec: fingerprint line parser of the line codec
(SDPUtil.parseFingerprint): hash function token and fingerprint value. -/
def SDPUtil.parseFingerprint (line : String) : FingerprintData :=
  let parts := jsSplit " " (sdrop line 14)
  { hash := parts.headD "", fingerprint := (parts.drop 1).headD "" }

/-- Modelled from the spec: SCTP port line parser of the line codec
(SDPUtil.parseSCTPPort): the port after the marker. -/
def SDPUtil.parseSCTPPort (line : String) : String := sdrop line 12

/-- Modelled from the spec: legacy SCTP map line parser of the line codec
(SDPUtil.parseSCTPMap): port, protocol and optional stream count tokens. -/
def SDPUtil.parseSCTPMap (line : String) : List String := jsSplit " " (sdrop line 10)

/-- ICE credential pair of one media section. -/
structure IceParams where
  ufrag : String
  pwd : String
deriving Repr, DecidableEq

/-- Modelled from the spec: ICE credential lookup of the line codec
(SDPUtil.iceparams): present only when both the username fragment and the
password line are found in the section or the session part. -/
def SDPUtil.iceparams (mediaDesc sessionDesc : String) : Option IceParams :=
  match SDPUtil.findLine mediaDesc "a=ice-ufrag:" (some sessionDesc),
      SDPUtil.findLine mediaDesc "a=ice-pwd:" (some sessionDesc) with
  | some u, some p => some { ufrag := sdrop u 12, pwd := sdrop p 10 }
  | _, _ => none

/-- Parsed candidate line fields. -/
structure Candidate where
  foundation : String
  component : String
  protocol : String
  priority : String
  ip : String
  port : String
  type : String
  generation : String
deriving Repr, DecidableEq

/-- Modelled from the spec: candidate line parser of the line codec
(SDPUtil.candidateToJingle). -/
def SDPUtil.candidateToJingle (line : String) : Candidate :=
  let parts := jsSplit " " (sdrop line 12)
  { foundation := parts.headD "", component := (parts.drop 1).headD "",
    protocol := (parts.drop 2).headD "", priority := (parts.drop 3).headD "",
    ip := (parts.drop 4).headD "", port := (parts.drop 5).headD "",
    type := (parts.drop 7).headD "",
    generation :=
      match parts.findIdx? (fun t => t = "generation") with
      | some i => (parts.drop (i+1)).headD "0"
      | none => "0" }

/-- Attribute list of a candidate element built from a parsed candidate. -/
def candidateAttrs (c : Candidate) : List (String × String) :=
  [("foundation", c.foundation), ("component", c.component), ("protocol", c.protocol),
   ("priority", c.priority), ("ip", c.ip), ("port", c.port), ("type", c.type),
   ("generation", c.generation)]

/-- Replacement or insertion of one attribute binding, modelling
setAttribute. -/
def setAttrPairs : List (String × String) → String → String → List (String × String)
  | [], k, v => [(k, v)]
  | (k0, v0) :: rest, k, v =>
    if k0 = k then (k, v) :: rest else (k0, v0) :: setAttrPairs rest k v

/-- Attribute update on an element, modelling setAttribute. -/
def Elem.setAttr (e : Elem) (k v : String) : Elem :=
  .mk e.tag (setAttrPairs e.attrList k v) e.children e.text

/-- Description children of a content element (the jQuery description
selection in jingle2media). -/
def j2mDesc (content : Elem) : List Elem := jqChildren [content] "description"

/-- Transport children of a content element carrying the ICE UDP namespace. -/
def j2mTransport (content : Elem) : List Elem :=
  jqChildrenX [content] "transport" XEP.ICE_UDP_TRANSPORT

/-- SCTP mapping children of the transport selection. -/
def j2mSctp (content : Elem) : List Elem :=
  jqChildrenX (j2mTransport content) "sctpmap" XEP.SCTP_DATA_CHANNEL

/-- Port chosen by jingle2media: the default port, or zero when the senders
attribute is the rejected marker (SDP.js lines 205 to 208). -/
def j2mPort (content : Elem) : String :=
  if jqAttr [content] "senders" = some "rejected" then "0" else "9"

/-- Protocol token chosen by jingle2media (SDP.js lines 209 to 213). -/
def j2mProto (content : Elem) : String :=
  if !(jqChildrenX (j2mTransport content) "fingerprint" XEP.DTLS_SRTP).isEmpty then
    if !(j2mSctp content).isEmpty then "UDP/DTLS/SCTP" else "UDP/TLS/RTP/SAVPF"
  else "UDP/TLS/RTP/SAVPF"

/-- Media-line block of jingle2media (SDP.js lines 214 to 225): the SCTP
application media line with its port and message-size lines, or the standard
media line built from the payload-type ids. -/
def j2mMLine (content : Elem) : String :=
  if !(j2mSctp content).isEmpty then
    "m=application " ++ j2mPort content ++ " UDP/DTLS/SCTP webrtc-datachannel\r\n"
      ++ "a=sctp-port:" ++ (jqAttr (j2mSctp content) "number").getD "undefined" ++ "\r\n"
      ++ "a=max-message-size:262144\r\n"
  else
    SDPUtil.buildMLine (jqAttr (j2mDesc content) "media") (j2mPort content) (j2mProto content)
      ((jqChildren (j2mDesc content) "payload-type").filterMap (fun pt => pt.attr? "id"))
      ++ "\r\n"

/-- Connection and RTCP block of jingle2media (SDP.js lines 227 to 230). -/
def j2mConn (content : Elem) : String :=
  "c=IN IP4 0.0.0.0\r\n" ++ (if (j2mSctp content).isEmpty then "a=rtcp:1 IN IP4 0.0.0.0\r\n" else "")

/-- ICE credential and fingerprint block of jingle2media (SDP.js lines 232 to
245). -/
def j2mIceLines (content : Elem) : String :=
  if !(j2mTransport content).isEmpty then
    (if jsTruthy (jqAttr (j2mTransport content) "ufrag") then
      SDPUtil.buildICEUfrag ((jqAttr (j2mTransport content) "ufrag").getD "") ++ "\r\n"
    else "")
    ++ (if jsTruthy (jqAttr (j2mTransport content) "pwd") then
      SDPUtil.buildICEPwd ((jqAttr (j2mTransport content) "pwd").getD "") ++ "\r\n"
    else "")
    ++ sjoin ((jqChildrenX (j2mTransport content) "fingerprint" XEP.DTLS_SRTP).map (fun fp =>
      "a=fingerprint:" ++ (fp.attr? "hash").getD "null" ++ " " ++ fp.text ++ "\r\n"
      ++ (if fp.hasAttr "setup" then "a=setup:" ++ (fp.attr? "setup").getD "null" ++ "\r\n"
          else "")))
  else ""

/-- Lower-cased transport protocol token of a candidate element, the empty
string when the attribute is not a string (SDP.js lines 248 to 250). -/
def candProtocolToken (cand : Elem) : String :=
  match cand.attr? "protocol" with
  | some p => sToLower p
  | none => ""

/-- Emission of one candidate child by jingle2media (SDP.js lines 247 to 260):
the candidate is dropped when its lower-cased protocol matches an enabled
filter toggle; otherwise, when the sentinel-address toggle is set, its address
attribute is overwritten before the line is built. -/
def j2mCandidate (st : SDPState) (cand : Elem) : String :=
  let protocol := candProtocolToken cand
  if (st.removeTcpCandidates && (protocol = "tcp" || protocol = "ssltcp"))
      || (st.removeUdpCandidates && protocol = "udp") then ""
  else if st.failICE then SDPUtil.candidateFromJingle (cand.setAttr "ip" "1.1.1.1")
  else SDPUtil.candidateFromJingle cand

/-- Candidate block of jingle2media. -/
def j2mCands (st : SDPState) (content : Elem) : String :=
  sjoin ((jqChildren (j2mTransport content) "candidate").map (fun c => j2mCandidate st c))

/-- Direction line of jingle2media (SDP.js lines 262 to 275), mapping the
senders attribute of the content to a direction marker line. -/
def j2mDirection (content : Elem) : String :=
  match jqAttr [content] "senders" with
  | some "initiator" => "a=sendonly\r\n"
  | some "responder" => "a=recvonly\r\n"
  | some "none" => "a=inactive\r\n"
  | some "both" => "a=sendrecv\r\n"
  | _ => ""

/-- Mid line of jingle2media (SDP.js line 276). -/
def j2mMid (content : Elem) : String :=
  "a=mid:" ++ (jqAttr [content] "name").getD "undefined" ++ "\r\n"

/-- RTCP multiplexing marker of jingle2media (SDP.js lines 281 to 283). -/
def j2mMux (content : Elem) : String :=
  if !(jqChildren (j2mDesc content) "rtcp-mux").isEmpty then "a=rtcp-mux\r\n" else ""

/-- Feedback serialization (SDP.js rtcpFbFromJingle, lines 380 to 401): the
wildcard retransmission-interval line when such a child is present, then one
feedback line per feedback child, with the subtype appended when present. -/
def rtcpFbFromJingle (elems : List Elem) (payloadtype : String) : String :=
  (if !(jqChildrenX elems "rtcp-fb-trr-int" XEP.RTP_FEEDBACK).isEmpty then
    "a=rtcp-fb:* trr-int "
      ++ (let v := jqAttr (jqChildrenX elems "rtcp-fb-trr-int" XEP.RTP_FEEDBACK) "value"
          if jsTruthy v then v.getD "" else "0")
      ++ "\r\n"
  else "")
  ++ sjoin ((jqChildrenX elems "rtcp-fb" XEP.RTP_FEEDBACK).map (fun fb =>
    "a=rtcp-fb:" ++ payloadtype ++ " " ++ (fb.attr? "type").getD "null"
    ++ (if fb.hasAttr "subtype" then " " ++ (fb.attr? "subtype").getD "null" else "")
    ++ "\r\n"))

/-- Lines emitted for one payload type by jingle2media (SDP.js lines 285 to
302): format map, format parameters joined with semicolons, then its feedback
lines. -/
def j2mPayloadStr (pt : Elem) : String :=
  SDPUtil.buildRTPMap pt ++ "\r\n"
  ++ (if !(jqChildren [pt] "parameter").isEmpty then
      "a=fmtp:" ++ (pt.attr? "id").getD "null" ++ " "
      ++ sintercalate ";" ((jqChildren [pt] "parameter").map (fun p =>
          (if jsTruthy (p.attr? "name") then (p.attr? "name").getD "" ++ "=" else "")
          ++ (p.attr? "value").getD "null"))
      ++ "\r\n"
    else "")
  ++ rtcpFbFromJingle [pt] ((pt.attr? "id").getD "null")

/-- Payload block of jingle2media. -/
def j2mPayloads (content : Elem) : String :=
  sjoin ((jqChildren (j2mDesc content) "payload-type").map j2mPayloadStr)

/-- Header-extension block of jingle2media (SDP.js lines 306 to 311). -/
def j2mHdrext (content : Elem) : String :=
  sjoin ((jqChildrenX (j2mDesc content) "rtp-hdrext" XEP.RTP_HEADER_EXTENSIONS).map (fun he =>
    "a=extmap:" ++ (he.attr? "id").getD "null" ++ " " ++ (he.attr? "uri").getD "null" ++ "\r\n"))
  ++ (if !(jqChildrenX (j2mDesc content) "extmap-allow-mixed" XEP.RTP_HEADER_EXTENSIONS).isEmpty then
      "a=extmap-allow-mixed\r\n"
    else "")

/-- Source-group block of jingle2media (SDP.js lines 313 to 326). -/
def j2mSsrcGroups (content : Elem) : String :=
  sjoin ((jqChildrenX (j2mDesc content) "ssrc-group" XEP.SOURCE_ATTRIBUTES).map (fun g =>
    let ssrcs := (jqChildren [g] "source").filterMap (fun s => s.attr? "ssrc")
    if ssrcs ≠ [] then
      "a=ssrc-group:" ++ (g.attr? "semantics").getD "null" ++ " " ++ sintercalate " " ssrcs
        ++ "\r\n"
    else ""))

/-- Source lines generated for one source element by jingle2media (SDP.js
lines 333 to 356): one ssrc line per parameter child, the sanitized value
appended after a colon when nonempty. -/
def j2mSourceStr (source : Elem) : String :=
  sjoin ((jqChildren [source] "parameter").map (fun p =>
    let value := (p.attr? "value").map SDPUtil.filterSpecialChars
    "a=ssrc:" ++ (source.attr? "ssrc").getD "null" ++ " " ++ (p.attr? "name").getD "null"
    ++ (match value with
        | some v => if v ≠ "" then ":" ++ v else ""
        | none => "")
    ++ "\r\n"))

/-- User-source classification of jingle2media (SDP.js lines 335 and 353): a
source is a user source unless some sanitized parameter value contains the
mixer-label marker substring. -/
def j2mIsUserSource (source : Elem) : Bool :=
  !((jqChildren [source] "parameter").any (fun p =>
    match (p.attr? "value").map SDPUtil.filterSpecialChars with
    | some v => containsSub "mixedmslabel" v
    | none => false))

/-- Accumulation of user and non-user source text over the source children in
declaration order (SDP.js lines 328 to 363): the pair holds the user text and
the non-user text. -/
def j2mSourcesFold (sources : List Elem) : String × String :=
  sources.foldl (fun acc s =>
    if j2mIsUserSource s then (acc.1 ++ j2mSourceStr s, acc.2)
    else (acc.1, acc.2 ++ j2mSourceStr s)) ("", "")

/-- Source children of the description selection carrying the source-attribute
namespace. -/
def j2mSourceElems (content : Elem) : List Elem :=
  jqChildrenX (j2mDesc content) "source" XEP.SOURCE_ATTRIBUTES

/-- Source block of jingle2media (SDP.js line 367): the non-user text is
appended before the user text. -/
def j2mSources (content : Elem) : String :=
  let acc := j2mSourcesFold (j2mSourceElems content)
  acc.2 ++ acc.1

/-- Conversion of one content element of a stanza to a media section string
(SDP.js jingle2media, lines 198 to 370), as the concatenation of its blocks in
emission order. -/
def jingle2media (st : SDPState) (content : Elem) : String :=
  j2mMLine content ++ j2mConn content ++ j2mIceLines content ++ j2mCands st content
  ++ j2mDirection content ++ j2mMid content ++ j2mMux content ++ j2mPayloads content
  ++ rtcpFbFromJingle (j2mDesc content) "*" ++ j2mHdrext content
  ++ j2mSsrcGroups content ++ j2mSources content

/-- Session part built by fromJingle (SDP.js lines 104 to 131): the synthetic
header, whose fresh clock-produced session identifier is passed in as the
parameter now, followed by one grouping line per bundle group child with a
nonempty content-name list, preferring the semantics attribute over the type
attribute. -/
def fromJingleSession (now : Nat) (jingle : Elem) : String :=
  let header := "v=0\r\n" ++ "o=- " ++ toString now ++ " 2 IN IP4 0.0.0.0\r\n"
    ++ "s=-\r\n" ++ "t=0 0\r\n"
  (jqChildrenX [jingle] "group" XEP.BUNDLE_MEDIA).foldl (fun acc g =>
    let contents := (jqChildren [g] "content").filterMap (fun c => c.attr? "name")
    if 0 < contents.length then
      acc ++ "a=group:"
        ++ ((g.attr? "semantics").orElse (fun _ => g.attr? "type")).getD "null" ++ " "
        ++ sintercalate " " contents ++ "\r\n"
    else acc) header

/-- Media loop of fromJingle (SDP.js lines 132 to 138): the conversion of each
content child is pushed onto the media list the model already holds. -/
def fromJingle (st : SDPState) (now : Nat) (jingle : Elem) : SDPState :=
  let session := fromJingleSession now jingle
  let media2 := st.media ++ (jqChildren [jingle] "content").map (fun c => jingle2media st c)
  { st with raw := session ++ sjoin media2, session := session, media := media2 }

/-- One ssrc entry of the inventory: the identifier and its attribute lines
(getMediaSsrcMap, SDP.js lines 160 to 171). -/
structure ChannelSsrc where
  ssrc : String
  lines : List String
deriving Repr, DecidableEq

/-- Inventory entry of one media section (getMediaSsrcMap): position, media
type, mid, ssrc entries keyed by identifier in first-seen order, and ssrc
groups. -/
structure MediaSsrcInfo where
  mediaindex : Nat
  mediaType : String
  mid : Option String
  ssrcs : List (String × ChannelSsrc)
  ssrcGroups : List SSRCGroupData
deriving Repr, DecidableEq

/-- Folding of the ssrc lines of one section into keyed entries (SDP.js lines
160 to 171): a new entry is allocated on first sight of an identifier, and the
line is appended to the lines of its entry. -/
def collectSsrcs (lines : List String) : List (String × ChannelSsrc) :=
  lines.foldl (fun acc line =>
    let id := firstToken (sdrop line 7)
    if acc.any (fun kv => kv.1 = id) then
      acc.map (fun kv => if kv.1 = id then (kv.1, { kv.2 with lines := kv.2.lines ++ [line] }) else kv)
    else acc ++ [(id, { ssrc := id, lines := [line] })]) []

/-- Extraction of the ssrc inventory from all media sections (SDP.js
getMediaSsrcMap, lines 146 to 190), one entry per section index. -/
def getMediaSsrcMap (st : SDPState) : List MediaSsrcInfo :=
  st.media.enum.map (fun p =>
    let mediaItem := p.2
    { mediaindex := p.1,
      mediaType := (SDPUtil.parseMLine ((jsSplit "\r\n" mediaItem).headD "")).media,
      mid := (SDPUtil.findLine mediaItem "a=mid:" none).map SDPUtil.parseMID,
      ssrcs := collectSsrcs (SDPUtil.findLines mediaItem "a=ssrc:" none),
      ssrcGroups := (SDPUtil.findLines mediaItem "a=ssrc-group:" none).foldl (fun acc line =>
        let semantics := sdrop (firstToken line) 13
        let ssrcs := jsSplit " " (sdrop line (14 + semantics.length))
        if ssrcs ≠ [] then acc ++ [{ semantics := semantics, ssrcs := ssrcs }] else acc) [] })

/-- Membership of an ssrc identifier in the inventory of some section (SDP.js
containsSSRC, lines 91 to 95). -/
def containsSSRC (st : SDPState) (ssrc : String) : Bool :=
  (getMediaSsrcMap st).any (fun m => m.ssrcs.any (fun kv => kv.1 = ssrc))

/-- Structured media object of the third-party SDP grammar library as read and
written by the renegotiation mutator: the fields the mutator touches, plus a
preserved remainder standing for all other parsed attributes, which the deep
clone copies unchanged. -/
structure TMedia where
  type : String
  port : String
  mid : String
  direction : Option String
  msid : Option String
  ssrcs : Option (List String)
  ssrcGroups : Option (List String)
  rest : List String
deriving Repr, DecidableEq

/-- Structured group object of the third-party SDP grammar library: group type
and the space-joined mid list. -/
structure TGroup where
  type : String
  mids : String
deriving Repr, DecidableEq

/-- Structured session object of the third-party SDP grammar library, as far
as the renegotiation mutator reads and writes it. -/
structure TSdp where
  media : List TMedia
  groups : List TGroup
deriving Repr, DecidableEq

/-- Renegotiation mutator (SDP.js addMlineForNewLocalSource, lines 62 to 83)
over the structured session: clone the first section of the requested type,
reset its mid to the new index, set the direction receive-only, clear stream
id, ssrc and ssrc-group fields, append it, and append the new index to the mid
list of every BUNDLE group. When no section of the requested type exists, the
clone is undefined and the first property assignment on it throws a type
error, which the error result models. -/
def addMlineForNewLocalSource (sdp : TSdp) (mediaType : String) : Except String TSdp :=
  let mid := sdp.media.length
  match sdp.media.find? (fun m => m.type = mediaType) with
  | none => .error "TypeError: cannot set properties of undefined"
  | some found =>
    let mline := { found with
      mid := toString mid
      direction := some "recvonly"
      msid := none
      ssrcs := none
      ssrcGroups := none }
    .ok { media := sdp.media ++ [mline],
          groups := sdp.groups.map (fun g =>
            if g.type = "BUNDLE" then
              { g with mids := sintercalate " " (jsSplit " " g.mids ++ [toString mid]) }
            else g) }

mutual
/-- Mutation of the first node (the node itself or a descendant, in document
order) satisfying a predicate, together with a flag telling whether a node was
found, modelling an in-place DOM edit located through a descendant search. -/
def mFirst (p : Elem → Bool) (f : Elem → Elem) : Elem → Elem × Bool
  | .mk t a cs x =>
    if p (.mk t a cs x) then (f (.mk t a cs x), true)
    else
      let r := mFirstL p f cs
      (.mk t a r.1 x, r.2)

/-- List version of the first-node mutation: only the first satisfying subtree
is modified. -/
def mFirstL (p : Elem → Bool) (f : Elem → Elem) : List Elem → List Elem × Bool
  | [] => ([], false)
  | c :: cs =>
    let rc := mFirst p f c
    if rc.2 then (rc.1 :: cs, true)
    else
      let rcs := mFirstL p f cs
      (c :: rcs.1, rcs.2)
end

mutual
/-- Count of the nodes of a tree (the node itself included) satisfying a
predicate. -/
def cntP (p : Elem → Bool) : Elem → Nat
  | .mk t a cs x => (if p (.mk t a cs x) then 1 else 0) + cntPL p cs

/-- Count over a forest of the nodes satisfying a predicate. -/
def cntPL (p : Elem → Bool) : List Elem → Nat
  | [] => 0
  | c :: cs => cntP p c + cntPL p cs
end

/-- Stanza builder cursor, modelling the Strophe message builder: the root
tree under construction and the path of child indices to the current node. -/
structure Builder where
  root : Elem
  path : List Nat

/-- Modification of the node of a tree at a child-index path. An invalid path
leaves the tree unchanged. -/
def modifyAt : List Nat → Elem → (Elem → Elem) → Elem
  | [], e, f => f e
  | i :: p, e, f =>
    match e.children[i]? with
    | some c => .mk e.tag e.attrList (e.children.set i (modifyAt p c f)) e.text
    | none => e

/-- Appending a fully built child under the current node, the net effect of
opening a child, filling it and closing it again with the builder. -/
def Builder.appendChildHere (b : Builder) (e : Elem) : Builder :=
  { b with root := modifyAt b.path b.root (fun n => n.addChildren [e]) }

/-- Moving the cursor to the parent, modelling the up call of the builder; at
the root the cursor stays. -/
def Builder.up (b : Builder) : Builder := { b with path := b.path.dropLast }

/-- Test for a content element with a given name that carries a creator
attribute, as selected and filtered by the merge loop of toJingle (SDP.js
lines 475 to 485). -/
def isCreatorContent (name : String) (e : Elem) : Bool :=
  e.tag = "content" && e.attr? "name" = some name && (e.attr? "creator").isSome

/-- Mutation of the first strict descendant of the root satisfying a
predicate, in document order, with a found flag (the searching half of the
merge loop of toJingle). -/
def mutateTreeBelow (p : Elem → Bool) (f : Elem → Elem) (root : Elem) : Elem × Bool :=
  let r := mFirstL p f root.children
  (.mk root.tag root.attrList r.1 root.text, r.2)

/-- Source elements built from the ssrc entries of one media section, shared
between the create branch (SDP.js lines 576 to 601) and the merge branch
(SDP.js lines 487 to 512) of toJingle: ssrc, recovered source name and video
type, and a stream-id parameter child when one is present. -/
def sourceElemsOf (mediaItem : String) : List Elem :=
  (SDPUtil.parseSSRC mediaItem).map (fun kv =>
    Elem.mk "source"
      (optAttrs [("ssrc", some kv.1), ("name", SDPUtil.parseSourceNameLine kv.2),
        ("videoType", SDPUtil.parseVideoTypeLine kv.2), ("xmlns", some XEP.SOURCE_ATTRIBUTES)])
      (match SDPUtil.parseMSIDAttribute kv.2 with
       | some msid => [Elem.mk "parameter" [("name", "msid"), ("value", msid)] [] ""]
       | none => []) "")

/-- Grouped-source elements built from the ssrc-group lines of one media
section, shared between the create branch (SDP.js lines 603 to 616) and the
merge branch (SDP.js lines 514 to 534) of toJingle. -/
def groupElemsOf (mediaItem : String) : List Elem :=
  (SDPUtil.findLines mediaItem "a=ssrc-group:" none).filterMap (fun line =>
    let pg := SDPUtil.parseSSRCGroupLine line
    if pg.ssrcs ≠ [] then
      some (Elem.mk "ssrc-group" [("semantics", pg.semantics), ("xmlns", XEP.SOURCE_ATTRIBUTES)]
        (pg.ssrcs.map (fun s => Elem.mk "source" [("ssrc", s)] [] "")) "")
    else none)

/-- Merge applied to a found content element: the source and grouped-source
elements of the section are appended into its first descendant description
element (SDP.js lines 487 to 534). -/
def mergeIntoContent (newChildren : List Elem) (content : Elem) : Elem :=
  let r := mFirstL (fun e => e.tag = "description") (fun d => d.addChildren newChildren)
    content.children
  .mk content.tag content.attrList r.1 content.text

/-- Feedback children built from the feedback lines of a section for one
payload id (SDP.js rtcpFbToJingle, lines 411 to 434): a retransmission
interval child, or a generic feedback child with an optional subtype. -/
def rtcpFbToJingle (mediaItem payloadtype : String) : List Elem :=
  (SDPUtil.findLines mediaItem ("a=rtcp-fb:" ++ payloadtype) none).map (fun line =>
    let fb := SDPUtil.parseRTCPFB line
    if fb.type = "trr-int" then
      Elem.mk "rtcp-fb-trr-int"
        (optAttrs [("xmlns", some XEP.RTP_FEEDBACK), ("value", fb.params.head?)]) [] ""
    else
      Elem.mk "rtcp-fb"
        ([("xmlns", XEP.RTP_FEEDBACK), ("type", fb.type)]
          ++ (match fb.params.head? with
              | some sub => [("subtype", sub)]
              | none => [])) [] "")

/-- Senders attribute computed for a section from its direction marker lines
and the rejection rule (SDP.js lines 694 to 709): the four markers are
consulted in fixed order, and a zero port with no bundle-only line (also
looked up in the session part) overrides the result with the rejected
value. -/
def sendersForMLine (mediaItem session port : String) : Option String :=
  let base :=
    if (SDPUtil.findLine mediaItem "a=sendrecv" none).isSome then some "both"
    else if (SDPUtil.findLine mediaItem "a=sendonly" none).isSome then some "initiator"
    else if (SDPUtil.findLine mediaItem "a=recvonly" none).isSome then some "responder"
    else if (SDPUtil.findLine mediaItem "a=inactive" none).isSome then some "none"
    else none
  if port = "0" && (SDPUtil.findLine mediaItem "a=bundle-only" (some session)).isNone then
    some "rejected"
  else base

/-- Payload-type element built for one declared format (SDP.js lines 559 to
574): attributes from the format-map line, parameter children from the
format-parameters line, then feedback children. -/
def payloadElemFor (mediaItem : String) (format : String) : Elem :=
  Elem.mk "payload-type"
    (((SDPUtil.findLine mediaItem ("a=rtpmap:" ++ format) none).map SDPUtil.parseRTPMap).getD [])
    ((match SDPUtil.findLine mediaItem ("a=fmtp:" ++ format) none with
      | some l => (SDPUtil.parseFmtp l).map (fun kv => Elem.mk "parameter" kv [] "")
      | none => [])
      ++ rtcpFbToJingle mediaItem format) ""

/-- Header-extension element built from one extension-mapping line (SDP.js
lines 653 to 680). A direction qualifier maps to a senders attribute, which
the builder stamps on the extension element itself, the current node at that
point. -/
def hdrextElemFor (line : String) : Elem :=
  let ext := SDPUtil.parseExtmap line
  Elem.mk "rtp-hdrext"
    ([("xmlns", XEP.RTP_HEADER_EXTENSIONS), ("uri", ext.uri), ("id", ext.value)]
      ++ (match ext.direction with
          | some "sendonly" => [("senders", "responder")]
          | some "recvonly" => [("senders", "initiator")]
          | some "sendrecv" => [("senders", "both")]
          | some "inactive" => [("senders", "none")]
          | _ => [])) [] ""

/-- Rid source elements and rid grouping of a section (SDP.js lines 619 to
643), emitted only when the engine capability predicate reports rid-based
simulcast. -/
def ridElemsFor (st : SDPState) (mediaItem : String) : List Elem :=
  let ridLines := SDPUtil.findLines mediaItem "a=rid:" none
  if ridLines ≠ [] && st.usesRidsForSimulcast then
    let rids := ridLines.map (fun l => firstToken (((jsSplit ":" l).drop 1).headD ""))
    rids.map (fun r => Elem.mk "source" [("rid", r), ("xmlns", XEP.SOURCE_ATTRIBUTES)] [] "")
    ++ (if (SDPUtil.findLine mediaItem "a=simulcast:" none).isSome then
        [Elem.mk "rid-group" [("semantics", "SIM"), ("xmlns", XEP.SOURCE_ATTRIBUTES)]
          (rids.map (fun r => Elem.mk "source" [("rid", r)] [] "")) ""]
      else [])
  else []

/-- Description element built for an audio or video section (SDP.js lines 553
to 689): payload types, then sources and groups when an ssrc is present, rid
elements, the multiplexing marker, wildcard feedback children, header
extensions and the allow-mixed marker, in builder order. -/
def descriptionElemFor (st : SDPState) (mediaItem mediaType : String) (mline : MLineData)
    (hasSsrc : Bool) : Elem :=
  Elem.mk "description" [("xmlns", XEP.RTP_MEDIA), ("media", mediaType)]
    ((mline.fmt.map (fun format => payloadElemFor mediaItem format))
      ++ (if hasSsrc then sourceElemsOf mediaItem ++ groupElemsOf mediaItem else [])
      ++ ridElemsFor st mediaItem
      ++ (if (SDPUtil.findLine mediaItem "a=rtcp-mux" none).isSome then
          [Elem.mk "rtcp-mux" [] [] ""]
        else [])
      ++ rtcpFbToJingle mediaItem "*"
      ++ (SDPUtil.findLines mediaItem "a=extmap:" (some st.session)).map hdrextElemFor
      ++ (if (SDPUtil.findLine mediaItem "a=extmap-allow-mixed" (some st.session)).isSome then
          [Elem.mk "extmap-allow-mixed" [("xmlns", XEP.RTP_HEADER_EXTENSIONS)] [] ""]
        else [])) ""

/-- Conversion of one candidate line by transportToJingle (SDP.js lines 780 to
797): the parsed candidate has its address overwritten when the
sentinel-address toggle is set, and is then dropped when its lower-cased
protocol matches an enabled filter toggle. -/
def t2jCandidate (st : SDPState) (line : String) : Option Elem :=
  let cand0 := SDPUtil.candidateToJingle line
  let cand := if st.failICE then { cand0 with ip := "1.1.1.1" } else cand0
  let protocol := sToLower cand.protocol
  if (st.removeTcpCandidates && (protocol = "tcp" || protocol = "ssltcp"))
      || (st.removeUdpCandidates && protocol = "udp") then none
  else some (Elem.mk "candidate" (candidateAttrs cand) [] "")

/-- Transport element built for one section (SDP.js transportToJingle, lines
723 to 800): the SCTP mapping, the fingerprints with their setup attribute,
and, when ICE credentials are found, the credential attributes and the
filtered candidate children. -/
def transportElemFor (st : SDPState) (mediaItem : String) : Elem :=
  let sctpChildren :=
    match SDPUtil.findLine mediaItem "a=sctp-port:" (some st.session) with
    | some l =>
      [Elem.mk "sctpmap" [("xmlns", XEP.SCTP_DATA_CHANNEL),
        ("number", SDPUtil.parseSCTPPort l), ("protocol", "webrtc-datachannel"),
        ("streams", "0")] [] ""]
    | none =>
      match SDPUtil.findLine mediaItem "a=sctpmap:" (some st.session) with
      | some l =>
        let sctpAttrs := SDPUtil.parseSCTPMap l
        [Elem.mk "sctpmap"
          (optAttrs [("xmlns", some XEP.SCTP_DATA_CHANNEL), ("number", sctpAttrs.head?),
            ("protocol", (sctpAttrs.drop 1).head?)]
            ++ [("streams", if 2 < sctpAttrs.length then (sctpAttrs.drop 2).headD "0" else "0")])
          [] ""]
      | none => []
  let fpChildren := (SDPUtil.findLines mediaItem "a=fingerprint:" (some st.session)).map (fun line =>
    let fp := SDPUtil.parseFingerprint line
    Elem.mk "fingerprint"
      ([("hash", fp.hash), ("xmlns", XEP.DTLS_SRTP)]
        ++ (match SDPUtil.findLine mediaItem "a=setup:" (some st.session) with
            | some s => [("setup", sdrop s 8)]
            | none => [])) [] fp.fingerprint)
  match SDPUtil.iceparams mediaItem st.session with
  | some ice =>
    let candChildren := (SDPUtil.findLines mediaItem "a=candidate:" (some st.session)).filterMap
      (fun line => t2jCandidate st line)
    Elem.mk "transport"
      [("ufrag", ice.ufrag), ("pwd", ice.pwd), ("xmlns", XEP.ICE_UDP_TRANSPORT)]
      (sctpChildren ++ fpChildren ++ candChildren) ""
  | none => Elem.mk "transport" [] (sctpChildren ++ fpChildren) ""

/-- Resolved media type of a section: the application type is re-labelled to
the data content name (SDP.js line 466). -/
def resolvedType (mediaItem : String) : String :=
  let mline := SDPUtil.parseMLine ((jsSplit "\r\n" mediaItem).headD "")
  if mline.media = "application" then "data" else mline.media

/-- Ssrc token of a section (SDP.js lines 468 to 473): the first token of the
first ssrc line, when truthy. -/
def ssrcTokenOf (mediaItem : String) : Bool :=
  match SDPUtil.findLine mediaItem "a=ssrc:" none with
  | some l => firstToken (sdrop l 7) ≠ ""
  | none => false

/-- Children of the content element created for a section that meets no
existing content of its resolved type (SDP.js lines 539 to 710): the optional
initial-last-n child, the description for audio and video, and the
transport. -/
def contentChildrenFor (st : SDPState) (mediaItem : String) : List Elem :=
  let mline := SDPUtil.parseMLine ((jsSplit "\r\n" mediaItem).headD "")
  let mediaType := resolvedType mediaItem
  (if mediaType = "video" then
      match st.initialLastN with
      | some n => [Elem.mk "initial-last-n" [("xmlns", "jitsi:colibri2"), ("value", toString n)] [] ""]
      | none => []
    else [])
    ++ (if mediaType = "audio" || mediaType = "video" then
        [descriptionElemFor st mediaItem mediaType mline (ssrcTokenOf mediaItem)]
      else [])
    ++ [transportElemFor st mediaItem]

/-- Content element created for a section that meets no existing content of
its resolved type (SDP.js lines 539 to 710): creator and name attributes, the
assembled children, and the computed senders attribute. -/
def contentElemFor (st : SDPState) (thecreator mediaItem : String) : Elem :=
  let mline := SDPUtil.parseMLine ((jsSplit "\r\n" mediaItem).headD "")
  let mediaType := resolvedType mediaItem
  let mid := ((SDPUtil.findLine mediaItem "a=mid:" none).map SDPUtil.parseMID).getD ""
  Elem.mk "content"
    ([("creator", thecreator), ("name", if st.isP2P then mid else mediaType)]
      ++ (match sendersForMLine mediaItem st.session mline.port with
          | some s => [("senders", s)]
          | none => []))
    (contentChildrenFor st mediaItem) ""

/-- Merge branch of the media loop of toJingle (SDP.js lines 481 to 537): the
first content of the resolved type carrying a creator attribute, in document
order, has the source and grouped-source elements of the section appended into
its description when the section has an ssrc, and is left alone otherwise; the
rest of the tree is untouched and no content element is created. -/
def toJingleMergeStep (mediaItem : String) (b : Builder) : Builder :=
  { b with root := (mutateTreeBelow (isCreatorContent (resolvedType mediaItem))
      (fun c => if ssrcTokenOf mediaItem then
          mergeIntoContent (sourceElemsOf mediaItem ++ groupElemsOf mediaItem) c
        else c) b.root).1 }

/-- One iteration of the media loop of toJingle (SDP.js lines 464 to 711):
when the tree already holds a content of the resolved type carrying a creator
attribute, the step is the merge step; otherwise a fresh content element is
appended under the current node. -/
def toJingleStep (st : SDPState) (thecreator : String) (b : Builder) (mediaItem : String) :
    Builder :=
  let mediaType := resolvedType mediaItem
  let hasSsrc := ssrcTokenOf mediaItem
  let r := mutateTreeBelow (isCreatorContent mediaType)
    (fun c => if hasSsrc then mergeIntoContent (sourceElemsOf mediaItem ++ groupElemsOf mediaItem) c
              else c) b.root
  if r.2 then toJingleMergeStep mediaItem b
  else b.appendChildHere (contentElemFor st thecreator mediaItem)

/-- Group element emitted from one session grouping line (SDP.js lines 444 to
462): the semantics token of the line, with content-name children that are the
fixed media-type triple, or every mid in direct-connection mode. -/
def toJingleGroupStep (st : SDPState) (b : Builder) (line : String) : Builder :=
  let semantics := sdrop (firstToken line) 8
  let mediaTypes :=
    if st.isP2P then
      st.media.map (fun m => ((SDPUtil.findLine m "a=mid:" none).map SDPUtil.parseMID).getD "")
    else ["audio", "video", "data"]
  b.appendChildHere (Elem.mk "group" [("xmlns", XEP.BUNDLE_MEDIA), ("semantics", semantics)]
    (mediaTypes.map (fun t => Elem.mk "content" [("name", t)] [] "")) "")

/-- Group phase of toJingle: one group element per grouping line of the
session part. -/
def toJingleGroups (st : SDPState) (b : Builder) : Builder :=
  (SDPUtil.findLines st.session "a=group:" none).foldl (toJingleGroupStep st) b

/-- Conversion of the model to a stanza (SDP.js toJingle, lines 443 to 715):
the bundle groups from the session part, then one pass over the media sections
that creates or merges content elements, then the final cursor ascent. -/
def toJingle (st : SDPState) (thecreator : String) (b : Builder) : Builder :=
  ((st.media.foldl (toJingleStep st thecreator) (toJingleGroups st b))).up

/-- Example state for the C7 witness: one audio section holding ssrc 123. -/
def exC7 : SDPState :=
  { session := "v=0\r\n",
    media := ["m=audio 9 UDP/TLS/RTP/SAVPF 0\r\na=mid:audio\r\na=ssrc:123 cname:c\r\n"],
    raw := "", isP2P := false, failICE := false, removeTcpCandidates := false,
    removeUdpCandidates := false, initialLastN := none, usesRidsForSimulcast := false }

/-- Default inventory entry used to name the computed entry in the witness. -/
def defaultInfo : MediaSsrcInfo :=
  { mediaindex := 0, mediaType := "", mid := none, ssrcs := [], ssrcGroups := [] }

/-- Example session for the C3 witness: one audio and one video section, one
BUNDLE group over both. -/
def exC3 : TSdp :=
  { media := [
      { type := "audio", port := "9", mid := "0", direction := some "sendrecv",
        msid := some "ms a", ssrcs := some ["1"], ssrcGroups := none, rest := [] },
      { type := "video", port := "9", mid := "1", direction := some "sendrecv",
        msid := some "ms v", ssrcs := some ["2", "3"], ssrcGroups := some ["FID 2 3"],
        rest := ["x"] }],
    groups := [{ type := "BUNDLE", mids := "0 1" }] }

/-- The first video section of the C3 example. -/
def exC3v : TMedia :=
  { type := "video", port := "9", mid := "1", direction := some "sendrecv",
    msid := some "ms v", ssrcs := some ["2", "3"], ssrcGroups := some ["FID 2 3"],
    rest := ["x"] }

/-- Example session for C4: no video section. -/
def exC4 : TSdp :=
  { media := [
      { type := "audio", port := "9", mid := "0", direction := some "sendrecv",
        msid := none, ssrcs := none, ssrcGroups := none, rest := [] }],
    groups := [{ type := "BUNDLE", mids := "0" }] }

/-- Example payload-type element for C8: one feedback child of type nack with
subtype pli under payload id 100. -/
def exC8pt : Elem :=
  Elem.mk "payload-type" [("id", "100")]
    [Elem.mk "rtcp-fb" [("xmlns", XEP.RTP_FEEDBACK), ("type", "nack"), ("subtype", "pli")] [] ""]
    ""

/-- Example media section for C8 holding the serialized feedback line. -/
def exC8media : String :=
  "m=audio 9 UDP/TLS/RTP/SAVPF 100\r\na=rtcp-fb:100 nack pli\r\n"

/-- Example state for the C6 witness: tcp filtering enabled. -/
def exC6tcp : SDPState :=
  { session := "", media := [], raw := "", isP2P := false, failICE := false,
    removeTcpCandidates := true, removeUdpCandidates := false, initialLastN := none,
    usesRidsForSimulcast := false }

/-- Example state for the C6 witness: sentinel-address toggle enabled. -/
def exC6fail : SDPState :=
  { session := "", media := [], raw := "", isP2P := false, failICE := true,
    removeTcpCandidates := false, removeUdpCandidates := false, initialLastN := none,
    usesRidsForSimulcast := false }

/-- Example tcp candidate element for C6. -/
def exC6tcpCand : Elem :=
  Elem.mk "candidate" [("foundation", "1"), ("component", "1"), ("protocol", "SSLTCP"),
    ("priority", "1"), ("ip", "10.0.0.1"), ("port", "443"), ("type", "host")] [] ""

/-- Example udp candidate element for C6. -/
def exC6udpCand : Elem :=
  Elem.mk "candidate" [("foundation", "1"), ("component", "1"), ("protocol", "udp"),
    ("priority", "1"), ("ip", "10.0.0.1"), ("port", "10000"), ("type", "host")] [] ""

/-- Example candidate lines for C6. -/
def exC6tcpLine : String :=
  "a=candidate:1 1 tcp 2 10.0.0.1 443 typ host generation 0"

/-- Example udp candidate line for C6. -/
def exC6udpLine : String :=
  "a=candidate:1 1 udp 2 10.0.0.1 10000 typ host generation 0"

/-- Example content for the C1 witness: senders initiator with an empty body. -/
def exC1content : Elem :=
  Elem.mk "content" [("name", "audio"), ("senders", "initiator")] [] ""

/-- Example media sections for the C1 witness. -/
def exC1recv : String := "m=video 9 UDP/TLS/RTP/SAVPF 100\r\na=recvonly\r\na=mid:1\r\n"

/-- Example rejected media section for the C1 witness. -/
def exC1rej : String := "m=video 0 UDP/TLS/RTP/SAVPF 100\r\na=sendrecv\r\na=mid:1\r\n"

/-- Example state for the C9 witnesses: a model already holding one media
section. -/
def exC9st : SDPState :=
  { session := "v=0\r\n", media := ["m=audio 9 UDP/TLS/RTP/SAVPF 0\r\na=mid:0\r\n"],
    raw := "v=0\r\nm=audio 9 UDP/TLS/RTP/SAVPF 0\r\na=mid:0\r\n", isP2P := false,
    failICE := false, removeTcpCandidates := false, removeUdpCandidates := false,
    initialLastN := none, usesRidsForSimulcast := false }

/-- Example stanza for C9: one content child. -/
def exC9jingle : Elem :=
  Elem.mk "jingle" []
    [Elem.mk "content" [("name", "audio"), ("senders", "both")]
      [Elem.mk "description" [("xmlns", XEP.RTP_MEDIA), ("media", "audio")] [] ""] ""] ""

/-- Empty-model state for the C9 witness. -/
def exC9empty : SDPState :=
  { session := "", media := [], raw := "", isP2P := false, failICE := false,
    removeTcpCandidates := false, removeUdpCandidates := false, initialLastN := none,
    usesRidsForSimulcast := false }

/-- Prefix of the media loop of toJingle: the group phase followed by the
first k media sections. -/
def toJingleUpTo (st : SDPState) (thecreator : String) (b : Builder) (k : Nat) : Builder :=
  (st.media.take k).foldl (toJingleStep st thecreator) (toJingleGroups st b)

mutual
/-- No node of the tree is tagged content. -/
def noContent : Elem → Bool
  | .mk t _ cs _ => !(t = "content") && noContentL cs

/-- No node of the forest is tagged content. -/
def noContentL : List Elem → Bool
  | [] => true
  | c :: cs => noContent c && noContentL cs
end

/-- First video section of the C2 examples. -/
def exC2m0 : String := "m=video 9 UDP/TLS/RTP/SAVPF 100\r\na=mid:0\r\na=ssrc:1 cname:a\r\n"

/-- Second video section of the C2 examples. -/
def exC2m1 : String := "m=video 9 UDP/TLS/RTP/SAVPF 100\r\na=mid:1\r\na=ssrc:2 cname:b\r\n"

/-- Fresh stanza builder positioned at an empty jingle element. -/
def exC2b0 : Builder := { root := Elem.mk "jingle" [] [] "", path := [] }

/-- Direct-connection state with two video sections for the C2
counterexample. -/
def exC2p2p : SDPState :=
  { session := "v=0\r\n", media := [exC2m0, exC2m1], raw := "", isP2P := true,
    failICE := false, removeTcpCandidates := false, removeUdpCandidates := false,
    initialLastN := none, usesRidsForSimulcast := false }

/-- Grouped-connection state with two video sections for the C2 witness. -/
def exC2 : SDPState :=
  { session := "v=0\r\n", media := [exC2m0, exC2m1], raw := "", isP2P := false,
    failICE := false, removeTcpCandidates := false, removeUdpCandidates := false,
    initialLastN := none, usesRidsForSimulcast := false }

theorem str_ext {a b : String} (h : a.data = b.data) : a = b :=
  congrArg String.mk h

theorem data_append (a b : String) : (a ++ b).data = a.data ++ b.data := rfl

theorem data_mk (l : List Char) : (String.mk l).data = l := rfl

theorem splitCh_ne_nil (sep : List Char) (fuel : Nat) (l : List Char) :
    splitCh sep fuel l ≠ [] := by
  match fuel, l with
  | _, [] => simp [splitCh]
  | 0, c :: rest => simp [splitCh]
  | fuel+1, c :: rest =>
    simp only [splitCh]
    split
    · simp
    · rcases h : splitCh sep fuel rest with _ | ⟨h0, t0⟩
      · exact absurd h (splitCh_ne_nil sep fuel rest)
      · simp [List.modifyHead]

theorem icalate_nil (sep : List Char) : List.intercalate sep ([] : List (List Char)) = [] := by
  simp [List.intercalate]

theorem icalate_single (sep x : List Char) : List.intercalate sep [x] = x := by
  simp [List.intercalate]

theorem icalate_cons₂ (sep x y : List Char) (xs : List (List Char)) :
    List.intercalate sep (x :: y :: xs) = x ++ sep ++ List.intercalate sep (y :: xs) := by
  simp [List.intercalate, List.intersperse_cons_cons, List.append_assoc]

/-- Joining the split of a list with the separator it was split on recovers the
original list. -/
theorem intercalate_splitCh (sep : List Char) (hsep : sep ≠ []) :
    ∀ (fuel : Nat) (l : List Char), l.length ≤ fuel →
      List.intercalate sep (splitCh sep fuel l) = l := by
  intro fuel
  induction fuel with
  | zero =>
    intro l hl
    have : l = [] := List.eq_nil_of_length_eq_zero (Nat.le_zero.mp hl)
    subst this
    simp [splitCh, icalate_single]
  | succ fuel ih =>
    intro l hl
    match l with
    | [] => simp [splitCh, icalate_single]
    | c :: rest =>
      simp only [splitCh]
      by_cases hp : sep.isPrefixOf (c :: rest)
      · simp only [hp, if_true]
        have hpre : sep <+: c :: rest := List.isPrefixOf_iff_prefix.mp hp
        rcases hpre with ⟨t, ht⟩
        have hk : 1 ≤ sep.length := by
          cases sep
          · exact absurd rfl hsep
          · simp
        have hdrop : List.drop sep.length (c :: rest) = t := by
          rw [← ht, List.drop_left]
        have hdrop2 : rest.drop (sep.length - 1) = t := by
          have h1 : (c :: rest).drop sep.length = rest.drop (sep.length - 1) := by
            cases hsl : sep.length with
            | zero => omega
            | succ k => simp [List.drop_succ_cons]
          rw [← h1, hdrop]
        have hlr : rest.length ≤ fuel := by
          simp only [List.length_cons] at hl
          omega
        have hlen : (rest.drop (sep.length - 1)).length ≤ fuel := by
          have := List.length_drop (sep.length - 1) rest
          omega
        obtain ⟨h0, t0, hsp⟩ : ∃ a b, splitCh sep fuel (rest.drop (sep.length - 1)) = a :: b := by
          rcases hx : splitCh sep fuel (rest.drop (sep.length - 1)) with _ | ⟨a, b⟩
          · exact absurd hx (splitCh_ne_nil sep fuel _)
          · exact ⟨a, b, rfl⟩
        have hic := ih _ hlen
        rw [hsp] at hic
        rw [hsp, icalate_cons₂, hic, hdrop2, ← ht]
        simp
      · simp only [hp, Bool.false_eq_true, if_false]
        have hlen : rest.length ≤ fuel := by
          simp only [List.length_cons] at hl
          omega
        obtain ⟨h0, t0, hsp⟩ : ∃ a b, splitCh sep fuel rest = a :: b := by
          rcases hx : splitCh sep fuel rest with _ | ⟨a, b⟩
          · exact absurd hx (splitCh_ne_nil sep fuel _)
          · exact ⟨a, b, rfl⟩
        have hic := ih rest hlen
        rw [hsp] at hic
        rw [hsp]
        simp only [List.modifyHead]
        cases t0 with
        | nil =>
          rw [icalate_single] at hic ⊢
          simp [hic]
        | cons q qs =>
          rw [icalate_cons₂] at hic ⊢
          simp [← hic]

/-- When the separator does not occur, the split returns the whole list. -/
theorem splitCh_of_not_hasSub (sep : List Char) :
    ∀ (l : List Char) (fuel : Nat), hasSubCh sep l = false → splitCh sep fuel l = [l] := by
  intro l
  induction l with
  | nil => intro fuel _; simp [splitCh]
  | cons c rest ih =>
    intro fuel h
    simp only [hasSubCh, Bool.or_eq_false_iff] at h
    cases fuel with
    | zero => simp [splitCh]
    | succ fuel =>
      simp only [splitCh, h.1, if_false]
      rw [ih fuel h.2]
      simp [List.modifyHead]

/-- When the separator occurs and is nonempty, the split has at least two
parts. -/
theorem splitCh_length_of_hasSub (sep : List Char) (hsep : sep ≠ []) :
    ∀ (fuel : Nat) (l : List Char), l.length ≤ fuel → hasSubCh sep l = true →
      2 ≤ (splitCh sep fuel l).length := by
  intro fuel
  induction fuel with
  | zero =>
    intro l hl h
    have : l = [] := List.eq_nil_of_length_eq_zero (Nat.le_zero.mp hl)
    subst this
    simp only [hasSubCh, List.isEmpty_iff] at h
    exact absurd h hsep
  | succ fuel ih =>
    intro l hl h
    match l with
    | [] =>
      simp only [hasSubCh, List.isEmpty_iff] at h
      exact absurd h hsep
    | c :: rest =>
      simp only [splitCh]
      by_cases hp : sep.isPrefixOf (c :: rest)
      · simp only [hp, if_true, List.length_cons]
        have := splitCh_ne_nil sep fuel (rest.drop (sep.length - 1))
        have : 1 ≤ (splitCh sep fuel (rest.drop (sep.length - 1))).length := by
          rcases hq : splitCh sep fuel (rest.drop (sep.length - 1)) with _ | ⟨a, b⟩
          · exact absurd hq this
          · simp
        omega
      · simp only [hasSubCh, hp, Bool.false_or] at h
        simp only [hp, Bool.false_eq_true, if_false]
        have hlen : rest.length ≤ fuel := by
          simp only [List.length_cons] at hl
          omega
        have := ih rest hlen h
        rcases hq : splitCh sep fuel rest with _ | ⟨a, b⟩
        · exact absurd hq (splitCh_ne_nil sep fuel rest)
        · rw [hq] at this
          simpa [List.modifyHead] using this

theorem sjoin_redelimit_data (t : List (List Char)) (ht : t ≠ []) :
    ("\r\n").data ++ (sjoin (redelimit (t.map (fun l => String.mk l)))).data
      = ("\r\nm=").data ++ List.intercalate ("\r\nm=").data t := by
  induction t with
  | nil => exact absurd rfl ht
  | cons p rest ih =>
    cases rest with
    | nil =>
      simp [redelimit, sjoin, icalate_single, data_append, data_mk]
    | cons q qs =>
      have ih2 := ih (by simp)
      simp only [List.map_cons, redelimit, sjoin, List.map, List.flatten,
        data_append, data_mk, List.append_assoc] at ih2 ⊢
      rw [icalate_cons₂]
      rw [ih2]
      have hlit : ("\r\n" : String).data ++ ("m=" : String).data = ("\r\nm=" : String).data := by
        decide
      rw [← List.append_assoc, hlit]
      simp [List.append_assoc]

/-- C10: constructing the model from a description text containing at least one
CRLF-preceded media line and re-serializing (session header concatenated with
the media sections in order) returns the input unchanged; for a text with no
such delimiter, the re-serialization is the input with one extra CRLF. -/
theorem C10_construct_reserialize (s : String) (p : Bool) :
    (containsSub "\r\nm=" s = true → (SDP.construct s p).raw = s) ∧
    (containsSub "\r\nm=" s = false → (SDP.construct s p).raw = s ++ "\r\n") := by
  constructor
  · intro h
    have hsep : ("\r\nm=" : String).data ≠ [] := by decide
    have hemp : ("\r\nm=" : String).data.isEmpty = false := by decide
    have hlen2 := splitCh_length_of_hasSub ("\r\nm=").data hsep s.data.length s.data
      (Nat.le_refl _) h
    apply str_ext
    rcases hq : splitCh ("\r\nm=").data s.data.length s.data with _ | ⟨h0, t0⟩
    · exact absurd hq (splitCh_ne_nil _ _ _)
    · rw [hq] at hlen2
      cases t0 with
      | nil => simp at hlen2
      | cons q qs =>
        have hparts : jsSplit "\r\nm=" s = (h0 :: q :: qs).map (fun l => String.mk l) := by
          simp only [jsSplit, hemp, Bool.false_eq_true, if_false]
          rw [hq]
        have hraw : (SDP.construct s p).raw
            = (String.mk h0 ++ "\r\n") ++ sjoin (redelimit ((q :: qs).map (fun l => String.mk l))) := by
          simp only [SDP.construct, hparts, List.map_cons, List.headD_cons, List.tail_cons]
        rw [hraw]
        rw [data_append, data_append]
        rw [List.append_assoc]
        rw [data_mk]
        rw [sjoin_redelimit_data (q :: qs) (by simp)]
        have hs : List.intercalate ("\r\nm=").data (h0 :: q :: qs) = s.data := by
          rw [← hq]
          exact intercalate_splitCh _ hsep _ _ (Nat.le_refl _)
        rw [← hs, icalate_cons₂]
        simp [List.append_assoc]
  · intro h
    have hemp : ("\r\nm=" : String).data.isEmpty = false := by decide
    have hone := splitCh_of_not_hasSub ("\r\nm=").data s.data s.data.length h
    apply str_ext
    have hparts : jsSplit "\r\nm=" s = [String.mk s.data] := by
      simp only [jsSplit, hemp, Bool.false_eq_true, if_false]
      rw [hone]
      rfl
    have hraw : (SDP.construct s p).raw = (String.mk s.data ++ "\r\n") ++ sjoin [] := by
      simp only [SDP.construct, hparts, List.headD_cons, List.tail_cons, redelimit]
    rw [hraw]
    simp [sjoin, data_append, data_mk]

/-- Witness for C10 at concrete inputs: a two-section text round-trips exactly,
and a text with no media line gains one CRLF. -/
theorem C10_construct_reserialize_witness :
    (SDP.construct "v=0\r\no=x\r\nm=audio 9 P 0\r\na=mid:0" false).raw
        = "v=0\r\no=x\r\nm=audio 9 P 0\r\na=mid:0" ∧
    (SDP.construct "v=0\r\no=x" false).raw = "v=0\r\no=x" ++ "\r\n" :=
  ⟨(C10_construct_reserialize "v=0\r\no=x\r\nm=audio 9 P 0\r\na=mid:0" false).1 (by decide),
   (C10_construct_reserialize "v=0\r\no=x" false).2 (by decide)⟩

theorem digitChar_ne_space : ∀ m, m < 10 → Nat.digitChar m ≠ ' ' := by decide

theorem toDigitsCore_ne_space (fuel : Nat) :
    ∀ (n : Nat) (acc : List Char), (∀ c ∈ acc, c ≠ ' ') →
      ∀ c ∈ Nat.toDigitsCore 10 fuel n acc, c ≠ ' ' := by
  induction fuel with
  | zero => intro n acc hacc c hc; exact hacc c hc
  | succ fuel ih =>
    intro n acc hacc c hc
    simp only [Nat.toDigitsCore] at hc
    have hd : Nat.digitChar (n % 10) ≠ ' ' :=
      digitChar_ne_space _ (Nat.mod_lt _ (by norm_num))
    by_cases hz : n / 10 = 0
    · rw [if_pos hz] at hc
      rcases List.mem_cons.mp hc with h | h
      · exact h ▸ hd
      · exact hacc c h
    · rw [if_neg hz] at hc
      refine ih (n / 10) (Nat.digitChar (n % 10) :: acc) ?_ c hc
      intro d hd2
      rcases List.mem_cons.mp hd2 with h | h
      · exact h ▸ hd
      · exact hacc d h

theorem space_not_in_repr (n : Nat) : ' ' ∉ (Nat.repr n).data := by
  intro hmem
  have : (' ' : Char) ≠ ' ' := by
    have h2 : ∀ c ∈ Nat.toDigits 10 n, c ≠ ' ' := by
      intro c hc
      exact toDigitsCore_ne_space (n + 1) n [] (by simp) c hc
    exact h2 ' ' (by simpa [Nat.repr, List.asString] using hmem)
  exact this rfl

theorem splitCh_singleton (c : Char) :
    ∀ (fuel : Nat) (l : List Char), l.length ≤ fuel → splitCh [c] fuel l = l.splitOn c := by
  intro fuel
  induction fuel with
  | zero =>
    intro l hl
    have : l = [] := List.eq_nil_of_length_eq_zero (Nat.le_zero.mp hl)
    subst this
    simp [splitCh, List.splitOn, List.splitOnP_nil]
  | succ fuel ih =>
    intro l hl
    match l with
    | [] => simp [splitCh, List.splitOn, List.splitOnP_nil]
    | x :: rest =>
      have hlen : rest.length ≤ fuel := by
        simp only [List.length_cons] at hl
        omega
      simp only [splitCh, List.splitOn, List.splitOnP_cons]
      by_cases hxc : x = c
      · have hp : List.isPrefixOf [c] (x :: rest) = true := by
          simp [List.isPrefixOf, hxc]
        have hb : (x == c) = true := by simp [hxc]
        simp only [hp, if_true, hb]
        rw [show List.drop ([c].length - 1) rest = rest from by simp]
        rw [ih rest hlen]
        simp [List.splitOn]
      · have hp : List.isPrefixOf [c] (x :: rest) = false := by
          simp [List.isPrefixOf]
          exact fun h => absurd h.symm hxc
        have hb : (x == c) = false := by simp [hxc]
        simp only [hp, Bool.false_eq_true, if_false, hb]
        rw [ih rest hlen]
        rfl

theorem not_mem_splitOn_self (c : Char) :
    ∀ (l : List Char), ∀ part ∈ l.splitOn c, c ∉ part := by
  intro l
  induction l with
  | nil =>
    intro part hp
    simp only [List.splitOn, List.splitOnP_nil, List.mem_singleton] at hp
    simp [hp]
  | cons x xs ih =>
    intro part hp
    simp only [List.splitOn, List.splitOnP_cons] at hp
    by_cases hxc : x = c
    · have hb : (x == c) = true := by simp [hxc]
      rw [hb, if_pos rfl] at hp
      rcases List.mem_cons.mp hp with h | h
      · simp [h]
      · exact ih part h
    · have hb : (x == c) = false := by simp [hxc]
      rw [hb] at hp
      simp only [Bool.false_eq_true, if_false] at hp
      obtain ⟨h0, t0, hsp⟩ : ∃ a b, xs.splitOnP (fun a => a == c) = a :: b := by
        rcases hx : xs.splitOnP (fun a => a == c) with _ | ⟨a, b⟩
        · exact absurd hx (List.splitOnP_ne_nil _ xs)
        · exact ⟨a, b, rfl⟩
      rw [hsp] at hp
      simp only [List.modifyHead, List.mem_cons] at hp
      rcases hp with h | h
      · subst h
        intro hmem
        rcases List.mem_cons.mp hmem with h2 | h2
        · exact hxc h2.symm
        · exact ih h0 (by rw [List.splitOn, hsp]; exact List.mem_cons_self h0 t0) h2
      · exact ih part (by rw [List.splitOn, hsp]; exact List.mem_cons_of_mem h0 h)

theorem mk_eta (t : String) : String.mk t.data = t := rfl

theorem jsSplit_space (s : String) : jsSplit " " s = (s.data.splitOn ' ').map String.mk := by
  have hemp : (" " : String).data.isEmpty = false := by decide
  simp only [jsSplit, hemp, Bool.false_eq_true, if_false]
  rw [splitCh_singleton ' ' s.data.length s.data (Nat.le_refl _)]

/-- Splitting on a space after appending one space-free token to a join
recovers the original parts plus the token. -/
theorem jsSplit_space_append (s t : String) (ht : ' ' ∉ t.data) :
    jsSplit " " (sintercalate " " (jsSplit " " s ++ [t])) = jsSplit " " s ++ [t] := by
  rw [jsSplit_space s]
  have hdata : (sintercalate " " ((s.data.splitOn ' ').map String.mk ++ [t])).data
      = List.intercalate [' '] (s.data.splitOn ' ' ++ [t.data]) := by
    simp only [sintercalate, data_mk, List.map_append, List.map_map]
    have hid : String.data ∘ String.mk = id := rfl
    rw [hid, List.map_id]
    rfl
  rw [jsSplit_space]
  rw [hdata]
  have hx : ∀ l ∈ s.data.splitOn ' ' ++ [t.data], ' ' ∉ l := by
    intro l hl
    rcases List.mem_append.mp hl with h | h
    · exact not_mem_splitOn_self ' ' s.data l h
    · rw [List.mem_singleton.mp h]
      exact ht
  have hls : s.data.splitOn ' ' ++ [t.data] ≠ [] := by simp
  rw [show List.intercalate [' '] (s.data.splitOn ' ' ++ [t.data])
      = [' '].intercalate (s.data.splitOn ' ' ++ [t.data]) from rfl]
  rw [List.splitOn_intercalate (s.data.splitOn ' ' ++ [t.data]) ' ' hx hls]
  simp [mk_eta]

/-- C7: every identifier present in the ssrc map of some section is reported
by containsSSRC, and an identifier present in no section is not. -/
theorem C7_containsSSRC_inventory :
    (∀ (st : SDPState) (m : Nat) (info : MediaSsrcInfo) (s : String),
        (getMediaSsrcMap st)[m]? = some info →
        info.ssrcs.any (fun kv => kv.1 = s) = true →
        containsSSRC st s = true) ∧
    (∀ (st : SDPState) (s : String),
        (∀ info ∈ getMediaSsrcMap st, info.ssrcs.any (fun kv => kv.1 = s) = false) →
        containsSSRC st s = false) := by
  constructor
  · intro st m info s hm hs
    have hmem : info ∈ getMediaSsrcMap st := List.getElem?_mem hm
    simp only [containsSSRC]
    rw [List.any_eq_true]
    exact ⟨info, hmem, hs⟩
  · intro st s h
    simp only [containsSSRC]
    rw [List.any_eq_false]
    intro info hmem
    simp [h info hmem]

/-- Witness for C7: the ssrc present in the single section is reported, an
absent one is not. -/
theorem C7_containsSSRC_inventory_witness :
    containsSSRC exC7 "123" = true ∧ containsSSRC exC7 "999" = false :=
  ⟨C7_containsSSRC_inventory.1 exC7 0 ((getMediaSsrcMap exC7).headD defaultInfo) "123"
      (by decide) (by decide),
   C7_containsSSRC_inventory.2 exC7 "999" (by decide)⟩

/-- C3: on a model with at least one video section, the mutator appends
exactly one section, a clone of the first video section with direction
receive-only and cleared stream-id, ssrc and ssrc-group fields, its mid the
index of the new section; and the mid list of every BUNDLE group is its
previous list with that new index appended. -/
theorem C3_addMline_video (sdp : TSdp) (v : TMedia)
    (hv : sdp.media.find? (fun m => m.type = "video") = some v) :
    ∃ r, addMlineForNewLocalSource sdp "video" = .ok r
    ∧ r.media.length = sdp.media.length + 1
    ∧ r.media = sdp.media ++ [{ v with
        mid := toString sdp.media.length
        direction := some "recvonly"
        msid := none
        ssrcs := none
        ssrcGroups := none }]
    ∧ r.groups = sdp.groups.map (fun g =>
        if g.type = "BUNDLE" then
          { g with mids := sintercalate " " (jsSplit " " g.mids ++ [toString sdp.media.length]) }
        else g)
    ∧ ∀ g ∈ sdp.groups, g.type = "BUNDLE" →
        jsSplit " " (sintercalate " " (jsSplit " " g.mids ++ [toString sdp.media.length]))
          = jsSplit " " g.mids ++ [toString sdp.media.length] := by
  refine ⟨{
    media := sdp.media ++ [{ v with
      mid := toString sdp.media.length
      direction := some "recvonly"
      msid := none
      ssrcs := none
      ssrcGroups := none }]
    groups := sdp.groups.map (fun g =>
      if g.type = "BUNDLE" then
        { g with mids := sintercalate " " (jsSplit " " g.mids ++ [toString sdp.media.length]) }
      else g) }, ?_, ?_, rfl, rfl, ?_⟩
  · simp only [addMlineForNewLocalSource, hv]
  · simp
  · intro g hg hB
    exact jsSplit_space_append g.mids (toString sdp.media.length)
      (space_not_in_repr sdp.media.length)

/-- Witness for C3 at the concrete example session. -/
theorem C3_addMline_video_witness :
    ∃ r, addMlineForNewLocalSource exC3 "video" = .ok r
    ∧ r.media.length = exC3.media.length + 1
    ∧ r.media = exC3.media ++ [{ exC3v with
        mid := toString exC3.media.length
        direction := some "recvonly"
        msid := none
        ssrcs := none
        ssrcGroups := none }]
    ∧ r.groups = exC3.groups.map (fun g =>
        if g.type = "BUNDLE" then
          { g with mids := sintercalate " " (jsSplit " " g.mids ++ [toString exC3.media.length]) }
        else g)
    ∧ ∀ g ∈ exC3.groups, g.type = "BUNDLE" →
        jsSplit " " (sintercalate " " (jsSplit " " g.mids ++ [toString exC3.media.length]))
          = jsSplit " " g.mids ++ [toString exC3.media.length] :=
  C3_addMline_video exC3 exC3v (by decide)

/-- Counterexample for C4: with no video section, the call is not a silent
no-op returning the unchanged model; it raises a type error (the clone of the
missing section is undefined and the first property assignment on it
throws). -/
theorem C4_counterexample :
    addMlineForNewLocalSource exC4 "video" ≠ .ok exC4
    ∧ addMlineForNewLocalSource exC4 "video"
        = .error "TypeError: cannot set properties of undefined" := by
  have h : addMlineForNewLocalSource exC4 "video"
      = .error "TypeError: cannot set properties of undefined" := rfl
  constructor
  · rw [h]
    intro hcontra
    exact Except.noConfusion hcontra
  · exact h

/-- C4 as amended: when no section of the requested type exists, the call
throws a type error before any write, leaving the model unchanged, instead of
silently succeeding. -/
theorem C4_addMline_missing_type (sdp : TSdp) (mediaType : String)
    (h : sdp.media.find? (fun m => m.type = mediaType) = none) :
    addMlineForNewLocalSource sdp mediaType
      = .error "TypeError: cannot set properties of undefined" := by
  simp only [addMlineForNewLocalSource, h]

/-- Witness for the amended C4 at the concrete example session. -/
theorem C4_addMline_missing_type_witness :
    addMlineForNewLocalSource exC4 "video"
      = .error "TypeError: cannot set properties of undefined" :=
  C4_addMline_missing_type exC4 "video" (by decide)

theorem sappend_assoc (a b c : String) : (a ++ b) ++ c = a ++ (b ++ c) :=
  str_ext (by simp [data_append, List.append_assoc])

theorem sappend_empty (a : String) : a ++ "" = a :=
  str_ext (by simp [data_append])

/-- C8: the nack/pli feedback child of payload 100 serializes to the line
a=rtcp-fb:100 nack pli, and converting that line back produces a feedback
child with the same type and subtype pair. -/
theorem C8_feedback_roundtrip :
    rtcpFbFromJingle [exC8pt] "100" = "a=rtcp-fb:100 nack pli\r\n"
    ∧ rtcpFbToJingle exC8media "100"
      = [Elem.mk "rtcp-fb" [("xmlns", XEP.RTP_FEEDBACK), ("type", "nack"), ("subtype", "pli")]
          [] ""] :=
  ⟨rfl, rfl⟩

/-- C6: in both conversion directions, with the tcp filter enabled a candidate
whose protocol token is tcp or ssltcp is omitted while a udp candidate is
emitted unchanged (the other toggles cleared), and with the sentinel-address
toggle enabled every emitted candidate has its address overwritten to the
fixed sentinel before emission. -/
theorem C6_candidate_filtering :
    (∀ (st : SDPState) (cand : Elem), st.removeTcpCandidates = true →
        (candProtocolToken cand = "tcp" ∨ candProtocolToken cand = "ssltcp") →
        j2mCandidate st cand = "")
    ∧ (∀ (st : SDPState) (cand : Elem), st.removeTcpCandidates = true →
        st.removeUdpCandidates = false → st.failICE = false →
        candProtocolToken cand = "udp" →
        j2mCandidate st cand = SDPUtil.candidateFromJingle cand)
    ∧ (∀ (st : SDPState) (cand : Elem), st.failICE = true →
        ((st.removeTcpCandidates && (candProtocolToken cand = "tcp"
            || candProtocolToken cand = "ssltcp"))
          || (st.removeUdpCandidates && candProtocolToken cand = "udp")) = false →
        j2mCandidate st cand = SDPUtil.candidateFromJingle (cand.setAttr "ip" "1.1.1.1"))
    ∧ (∀ (st : SDPState) (line : String), st.removeTcpCandidates = true →
        st.failICE = false →
        (sToLower (SDPUtil.candidateToJingle line).protocol = "tcp"
          ∨ sToLower (SDPUtil.candidateToJingle line).protocol = "ssltcp") →
        t2jCandidate st line = none)
    ∧ (∀ (st : SDPState) (line : String), st.removeTcpCandidates = true →
        st.removeUdpCandidates = false → st.failICE = false →
        sToLower (SDPUtil.candidateToJingle line).protocol = "udp" →
        t2jCandidate st line
          = some (Elem.mk "candidate" (candidateAttrs (SDPUtil.candidateToJingle line)) [] ""))
    ∧ (∀ (st : SDPState) (line : String), st.failICE = true →
        ((st.removeTcpCandidates
            && (sToLower (SDPUtil.candidateToJingle line).protocol = "tcp"
              || sToLower (SDPUtil.candidateToJingle line).protocol = "ssltcp"))
          || (st.removeUdpCandidates
            && sToLower (SDPUtil.candidateToJingle line).protocol = "udp")) = false →
        t2jCandidate st line
          = some (Elem.mk "candidate"
              (candidateAttrs { SDPUtil.candidateToJingle line with ip := "1.1.1.1" }) [] "")) := by
  refine ⟨?_, ?_, ?_, ?_, ?_, ?_⟩
  · intro st cand ht hp
    rcases hp with h | h <;> simp [j2mCandidate, h, ht]
  · intro st cand ht hu hf hp
    simp [j2mCandidate, hp, ht, hu, hf]
  · intro st cand hf hdrop
    simp only [j2mCandidate]
    rw [hdrop]
    simp [hf]
  · intro st line ht hf hp
    rcases hp with h | h <;> simp [t2jCandidate, h, ht, hf]
  · intro st line ht hu hf hp
    simp [t2jCandidate, hp, ht, hu, hf]
  · intro st line hf hdrop
    simp only [t2jCandidate, hf, if_true]
    rw [show ({ SDPUtil.candidateToJingle line with ip := "1.1.1.1" } : Candidate).protocol
        = (SDPUtil.candidateToJingle line).protocol from rfl] at hdrop ⊢
    rw [hdrop]
    simp

/-- Witness for C6 at concrete candidates in both directions. -/
theorem C6_candidate_filtering_witness :
    j2mCandidate exC6tcp exC6tcpCand = ""
    ∧ j2mCandidate exC6tcp exC6udpCand = SDPUtil.candidateFromJingle exC6udpCand
    ∧ j2mCandidate exC6fail exC6udpCand
        = SDPUtil.candidateFromJingle (exC6udpCand.setAttr "ip" "1.1.1.1")
    ∧ t2jCandidate exC6tcp exC6tcpLine = none
    ∧ t2jCandidate exC6tcp exC6udpLine
        = some (Elem.mk "candidate"
            (candidateAttrs (SDPUtil.candidateToJingle exC6udpLine)) [] "")
    ∧ t2jCandidate exC6fail exC6udpLine
        = some (Elem.mk "candidate"
            (candidateAttrs { SDPUtil.candidateToJingle exC6udpLine with ip := "1.1.1.1" }) [] "") :=
  ⟨C6_candidate_filtering.1 exC6tcp exC6tcpCand rfl (Or.inr (by decide)),
   C6_candidate_filtering.2.1 exC6tcp exC6udpCand rfl rfl rfl (by decide),
   C6_candidate_filtering.2.2.1 exC6fail exC6udpCand rfl (by decide),
   C6_candidate_filtering.2.2.2.1 exC6tcp exC6tcpLine rfl rfl (Or.inl (by decide)),
   C6_candidate_filtering.2.2.2.2.1 exC6tcp exC6udpLine rfl rfl rfl (by decide),
   C6_candidate_filtering.2.2.2.2.2 exC6fail exC6udpLine rfl (by decide)⟩

theorem sempty_append (a : String) : "" ++ a = a :=
  str_ext (by simp [data_append])

theorem sjoin_cons (x : String) (xs : List String) : sjoin (x :: xs) = x ++ sjoin xs := rfl

/-- C1: the senders/direction mapping. A stanza content with senders initiator
produces a section whose direction line is send-only; a section whose only
direction marker line is receive-only and that is not rejected yields senders
responder; and a section with media-line port zero and no bundle-only line
yields senders rejected whatever direction markers it holds. -/
theorem C1_direction_senders :
    (∀ (st : SDPState) (content : Elem),
        jqAttr [content] "senders" = some "initiator" →
        jingle2media st content
          = (j2mMLine content ++ j2mConn content ++ j2mIceLines content ++ j2mCands st content)
            ++ "a=sendonly\r\n"
            ++ (j2mMid content ++ j2mMux content ++ j2mPayloads content
              ++ rtcpFbFromJingle (j2mDesc content) "*" ++ j2mHdrext content
              ++ j2mSsrcGroups content ++ j2mSources content))
    ∧ (∀ (st : SDPState) (thecreator mediaItem : String),
        SDPUtil.findLine mediaItem "a=sendrecv" none = none →
        SDPUtil.findLine mediaItem "a=sendonly" none = none →
        (SDPUtil.findLine mediaItem "a=recvonly" none).isSome = true →
        SDPUtil.findLine mediaItem "a=inactive" none = none →
        ¬((SDPUtil.parseMLine ((jsSplit "\r\n" mediaItem).headD "")).port = "0"
          ∧ SDPUtil.findLine mediaItem "a=bundle-only" (some st.session) = none) →
        (contentElemFor st thecreator mediaItem).attr? "senders" = some "responder")
    ∧ (∀ (st : SDPState) (thecreator mediaItem : String),
        (SDPUtil.parseMLine ((jsSplit "\r\n" mediaItem).headD "")).port = "0" →
        SDPUtil.findLine mediaItem "a=bundle-only" (some st.session) = none →
        (contentElemFor st thecreator mediaItem).attr? "senders" = some "rejected") := by
  refine ⟨?_, ?_, ?_⟩
  · intro st content h
    have hdir : j2mDirection content = "a=sendonly\r\n" := by
      simp [j2mDirection, h]
    simp only [jingle2media, hdir]
    simp [sappend_assoc]
  · intro st thecreator mediaItem hsr hso hro hin hnr
    have hs : sendersForMLine mediaItem st.session
        (SDPUtil.parseMLine ((jsSplit "\r\n" mediaItem).headD "")).port = some "responder" := by
      have hcond : (decide ((SDPUtil.parseMLine ((jsSplit "\r\n" mediaItem).headD "")).port = "0")
          && (SDPUtil.findLine mediaItem "a=bundle-only" (some st.session)).isNone) = false := by
        by_cases hp : (SDPUtil.parseMLine ((jsSplit "\r\n" mediaItem).headD "")).port = "0"
        · rcases hopt : SDPUtil.findLine mediaItem "a=bundle-only" (some st.session) with _ | v
          · exact (hnr ⟨hp, hopt⟩).elim
          · simp [Option.isNone]
        · rw [decide_eq_false hp, Bool.false_and]
      simp only [sendersForMLine, hcond, Bool.false_eq_true, if_false, hsr, hso, hin,
        Option.isSome_none, hro, if_true]
    simp only [contentElemFor, hs]
    simp [Elem.attr?, Elem.attrList, List.find?]
  · intro st thecreator mediaItem hp hbo
    have hs : sendersForMLine mediaItem st.session
        (SDPUtil.parseMLine ((jsSplit "\r\n" mediaItem).headD "")).port = some "rejected" := by
      have hcond : (decide ((SDPUtil.parseMLine ((jsSplit "\r\n" mediaItem).headD "")).port = "0")
          && (SDPUtil.findLine mediaItem "a=bundle-only" (some st.session)).isNone) = true := by
        rw [decide_eq_true hp, hbo]
        rfl
      simp only [sendersForMLine, hcond, if_true]
    simp only [contentElemFor, hs]
    simp [Elem.attr?, Elem.attrList, List.find?]

/-- Witness for C1 at concrete inputs: the three mapping clauses each applied
to an explicit content or section. -/
theorem C1_direction_senders_witness :
    jingle2media exC6tcp exC1content
      = (j2mMLine exC1content ++ j2mConn exC1content ++ j2mIceLines exC1content
          ++ j2mCands exC6tcp exC1content)
        ++ "a=sendonly\r\n"
        ++ (j2mMid exC1content ++ j2mMux exC1content ++ j2mPayloads exC1content
          ++ rtcpFbFromJingle (j2mDesc exC1content) "*" ++ j2mHdrext exC1content
          ++ j2mSsrcGroups exC1content ++ j2mSources exC1content)
    ∧ (contentElemFor exC6tcp "initiator" exC1recv).attr? "senders" = some "responder"
    ∧ (contentElemFor exC6tcp "initiator" exC1rej).attr? "senders" = some "rejected" :=
  ⟨C1_direction_senders.1 exC6tcp exC1content (by decide),
   C1_direction_senders.2.1 exC6tcp "initiator" exC1recv (by decide) (by decide) (by decide)
     (by decide) (by decide),
   C1_direction_senders.2.2 exC6tcp "initiator" exC1rej (by decide) (by decide)⟩

theorem j2mSourcesFold_eq (sources : List Elem) :
    j2mSourcesFold sources
      = (sjoin ((sources.filter (fun s => j2mIsUserSource s)).map j2mSourceStr),
         sjoin ((sources.filter (fun s => !j2mIsUserSource s)).map j2mSourceStr)) := by
  suffices h : ∀ (l : List Elem) (a b : String),
      l.foldl (fun acc s =>
        if j2mIsUserSource s then (acc.1 ++ j2mSourceStr s, acc.2)
        else (acc.1, acc.2 ++ j2mSourceStr s)) (a, b)
      = (a ++ sjoin ((l.filter (fun s => j2mIsUserSource s)).map j2mSourceStr),
         b ++ sjoin ((l.filter (fun s => !j2mIsUserSource s)).map j2mSourceStr)) by
    have h2 := h sources "" ""
    rw [sempty_append, sempty_append] at h2
    exact h2
  intro l
  induction l with
  | nil =>
    intro a b
    simp only [List.foldl_nil, List.filter_nil, List.map_nil]
    rw [show sjoin [] = "" from rfl, sappend_empty, sappend_empty]
  | cons s rest ih =>
    intro a b
    simp only [List.foldl_cons, List.filter_cons]
    by_cases hu : j2mIsUserSource s = true
    · rw [if_pos hu, ih]
      simp only [hu, if_true, Bool.not_true, Bool.false_eq_true, if_false, List.map_cons,
        sjoin_cons]
      rw [sappend_assoc]
    · have hu2 : j2mIsUserSource s = false := by
        cases hx : j2mIsUserSource s
        · rfl
        · exact absurd hx hu
      rw [if_neg (by simp [hu2]), ih]
      simp only [hu2, Bool.false_eq_true, if_false, Bool.not_false, if_true, List.map_cons,
        sjoin_cons]
      rw [sappend_assoc]

/-- C5: in the generated section, all source lines of non-user (mixer marked)
sources come before all source lines of user sources: the output decomposes as
the non-source blocks followed by the concatenated lines of the non-user
sources in declaration order and then those of the user sources in declaration
order, whichever order the stanza declared them in. -/
theorem C5_mixer_sources_first (st : SDPState) (content : Elem) :
    jingle2media st content
      = (j2mMLine content ++ j2mConn content ++ j2mIceLines content ++ j2mCands st content
          ++ j2mDirection content ++ j2mMid content ++ j2mMux content ++ j2mPayloads content
          ++ rtcpFbFromJingle (j2mDesc content) "*" ++ j2mHdrext content
          ++ j2mSsrcGroups content)
        ++ sjoin (((j2mSourceElems content).filter (fun s => !j2mIsUserSource s)).map
            j2mSourceStr)
        ++ sjoin (((j2mSourceElems content).filter (fun s => j2mIsUserSource s)).map
            j2mSourceStr) := by
  simp only [jingle2media, j2mSources, j2mSourcesFold_eq]
  simp [sappend_assoc]

/-- Counterexample for C9: on a model already holding a section, the media
list after fromJingle is not the list freshly built from the stanza alone (the
prior section survives in front of it). -/
theorem C9_counterexample :
    (fromJingle exC9st 7 exC9jingle).media
      ≠ (jqChildren [exC9jingle] "content").map (fun c => jingle2media exC9st c) := by
  decide

/-- C9 as amended: fromJingle replaces the session header and appends the
freshly built sections after those the model already holds; when the model
held no sections, as at every call site, the result is exactly the freshly
built session. -/
theorem C9_fromJingle_fresh (st : SDPState) (now : Nat) (j : Elem) (h : st.media = []) :
    fromJingle st now j = { st with
      session := fromJingleSession now j
      media := (jqChildren [j] "content").map (fun c => jingle2media st c)
      raw := fromJingleSession now j
        ++ sjoin ((jqChildren [j] "content").map (fun c => jingle2media st c)) } := by
  simp [fromJingle, h]

/-- Witness for the amended C9 at a concrete empty model. -/
theorem C9_fromJingle_fresh_witness :
    fromJingle exC9empty 7 exC9jingle = { exC9empty with
      session := fromJingleSession 7 exC9jingle
      media := (jqChildren [exC9jingle] "content").map (fun c => jingle2media exC9empty c)
      raw := fromJingleSession 7 exC9jingle
        ++ sjoin ((jqChildren [exC9jingle] "content").map
            (fun c => jingle2media exC9empty c)) } :=
  C9_fromJingle_fresh exC9empty 7 exC9jingle (by decide)

theorem elem_mutual_ind (P : Elem → Prop) (Q : List Elem → Prop)
    (hmk : ∀ t a cs x, Q cs → P (.mk t a cs x))
    (hnil : Q [])
    (hcons : ∀ c cs, P c → Q cs → Q (c :: cs)) :
    (∀ e, P e) ∧ (∀ cs, Q cs) := by
  have key : ∀ n, (∀ e : Elem, sizeOf e ≤ n → P e)
      ∧ (∀ cs : List Elem, sizeOf cs ≤ n → Q cs) := by
    intro n
    induction n with
    | zero =>
      constructor
      · intro e he
        rcases e with ⟨t, a, cs, x⟩
        have := Elem.mk.sizeOf_spec t a cs x
        omega
      · intro cs hcs
        cases cs with
        | nil => exact hnil
        | cons c cs2 =>
          have := List.cons.sizeOf_spec c cs2
          omega
    | succ n ih =>
      constructor
      · intro e he
        rcases e with ⟨t, a, cs, x⟩
        refine hmk t a cs x (ih.2 cs ?_)
        have := Elem.mk.sizeOf_spec t a cs x
        have h1 : 0 ≤ sizeOf t := Nat.zero_le _
        omega
      · intro cs hcs
        cases cs with
        | nil => exact hnil
        | cons c cs2 =>
          have := List.cons.sizeOf_spec c cs2
          exact hcons c cs2 (ih.1 c (by omega)) (ih.2 cs2 (by omega))
  exact ⟨fun e => (key (sizeOf e)).1 e (Nat.le_refl _),
    fun cs => (key (sizeOf cs)).2 cs (Nat.le_refl _)⟩

theorem cntPL_append (p : Elem → Bool) (a b : List Elem) :
    cntPL p (a ++ b) = cntPL p a + cntPL p b := by
  induction a with
  | nil => simp [cntPL]
  | cons c cs ih => simp [cntPL, ih]; omega

theorem cntPL_all_zero (p : Elem → Bool) (l : List Elem) (h : ∀ e ∈ l, cntP p e = 0) :
    cntPL p l = 0 := by
  induction l with
  | nil => simp [cntPL]
  | cons c cs ih =>
    simp only [cntPL]
    rw [h c (List.mem_cons_self c cs), ih (fun e he => h e (List.mem_cons_of_mem c he))]

theorem isCC_children_irrel (nm t : String) (a : List (String × String)) (cs cs2 : List Elem)
    (x : String) : isCreatorContent nm (.mk t a cs x) = isCreatorContent nm (.mk t a cs2 x) :=
  rfl

theorem cnt_addChildren (nm : String) (e : Elem) (cs2 : List Elem) :
    cntP (isCreatorContent nm) (e.addChildren cs2)
      = cntP (isCreatorContent nm) e + cntPL (isCreatorContent nm) cs2 := by
  rcases e with ⟨t, a, cs, x⟩
  simp only [Elem.addChildren, Elem.tag, Elem.attrList, Elem.children, Elem.text, cntP]
  rw [isCC_children_irrel nm t a (cs ++ cs2) cs x, cntPL_append]
  omega

theorem cnt_noContent (nm : String) :
    (∀ e, noContent e = true → cntP (isCreatorContent nm) e = 0)
    ∧ (∀ cs, noContentL cs = true → cntPL (isCreatorContent nm) cs = 0) := by
  refine elem_mutual_ind _ _ ?_ ?_ ?_
  · intro t a cs x hq h
    simp only [noContent, Bool.and_eq_true, Bool.not_eq_true'] at h
    simp only [cntP, isCreatorContent, Elem.tag]
    simp only [h.1, Bool.false_and, Bool.false_eq_true, if_false]
    rw [hq h.2]
  · intro _
    simp [cntPL]
  · intro c cs hp hq h
    simp only [noContentL, Bool.and_eq_true] at h
    simp only [cntPL]
    rw [hp h.1, hq h.2]

theorem cnt_mFirst_pair (nm : String) (p : Elem → Bool) (f : Elem → Elem)
    (hf : ∀ e, p e = true →
      cntP (isCreatorContent nm) (f e) = cntP (isCreatorContent nm) e) :
    (∀ e, cntP (isCreatorContent nm) ((mFirst p f e).1) = cntP (isCreatorContent nm) e)
    ∧ (∀ cs, cntPL (isCreatorContent nm) ((mFirstL p f cs).1)
        = cntPL (isCreatorContent nm) cs) := by
  refine elem_mutual_ind _ _ ?_ ?_ ?_
  · intro t a cs x hq
    simp only [mFirst]
    by_cases hp : p (.mk t a cs x) = true
    · rw [if_pos hp]
      exact hf _ hp
    · rw [if_neg hp]
      simp only [cntP]
      rw [isCC_children_irrel nm t a (mFirstL p f cs).1 cs x, hq]
  · simp [mFirstL]
  · intro c cs hp hq
    simp only [mFirstL]
    by_cases hflag : (mFirst p f c).2 = true
    · rw [if_pos hflag]
      simp only [cntPL]
      rw [hp]
    · rw [if_neg hflag]
      simp only [cntPL]
      rw [hq]

theorem flag_iff_cnt (p : Elem → Bool) (f : Elem → Elem) :
    (∀ e, (mFirst p f e).2 = true ↔ 0 < cntP p e)
    ∧ (∀ cs, (mFirstL p f cs).2 = true ↔ 0 < cntPL p cs) := by
  refine elem_mutual_ind _ _ ?_ ?_ ?_
  · intro t a cs x hq
    simp only [mFirst, cntP]
    by_cases hp : p (.mk t a cs x) = true
    · rw [if_pos hp, hp]
      simp
    · rw [if_neg hp]
      have hp0 : p (.mk t a cs x) = false := by
        cases hx : p (.mk t a cs x)
        · rfl
        · exact absurd hx hp
      rw [hp0]
      simpa using hq
  · simp [mFirstL, cntPL]
  · intro c cs hp hq
    simp only [mFirstL, cntPL]
    by_cases hflag : (mFirst p f c).2 = true
    · rw [if_pos hflag]
      have := hp.mp hflag
      simp
      omega
    · rw [if_neg hflag]
      have h0 : cntP p c = 0 := by
        by_contra hne
        exact hflag (hp.mpr (Nat.pos_of_ne_zero hne))
      simp only [h0, Nat.zero_add]
      exact hq

theorem noContentL_of_all (l : List Elem) (h : ∀ e ∈ l, noContent e = true) :
    noContentL l = true := by
  induction l with
  | nil => simp [noContentL]
  | cons c cs ih =>
    simp only [noContentL, Bool.and_eq_true]
    exact ⟨h c (List.mem_cons_self c cs), ih (fun e he => h e (List.mem_cons_of_mem c he))⟩

theorem noContent_leaf (tg : String) (a : List (String × String)) (x : String)
    (h : tg ≠ "content") : noContent (Elem.mk tg a [] x) = true := by
  simp [noContent, noContentL, h]

theorem noContent_node (tg : String) (a : List (String × String)) (cs : List Elem) (x : String)
    (h : tg ≠ "content") (hcs : noContentL cs = true) : noContent (Elem.mk tg a cs x) = true := by
  simp [noContent, h, hcs]

theorem noContent_sourceElems (m : String) : noContentL (sourceElemsOf m) = true := by
  refine noContentL_of_all _ ?_
  intro e he
  rcases List.mem_map.mp he with ⟨kv, _, hkv⟩
  subst hkv
  refine noContent_node _ _ _ _ (by decide) ?_
  rcases SDPUtil.parseMSIDAttribute kv.2 with _ | v
  · simp [noContentL]
  · simp only [noContentL, Bool.and_eq_true]
    exact ⟨noContent_leaf _ _ _ (by decide), by simp [noContentL]⟩

theorem noContent_groupElems (m : String) : noContentL (groupElemsOf m) = true := by
  refine noContentL_of_all _ ?_
  intro e he
  rcases List.mem_filterMap.mp he with ⟨line, _, hline⟩
  by_cases hne : (SDPUtil.parseSSRCGroupLine line).ssrcs ≠ []
  · rw [if_pos hne] at hline
    rcases Option.some_inj.mp hline with rfl
    refine noContent_node _ _ _ _ (by decide) ?_
    refine noContentL_of_all _ ?_
    intro e2 he2
    rcases List.mem_map.mp he2 with ⟨s, _, hs⟩
    subst hs
    exact noContent_leaf _ _ _ (by decide)
  · rw [if_neg hne] at hline
    exact absurd hline (by simp)

theorem noContent_rtcpFb (m pt : String) : noContentL (rtcpFbToJingle m pt) = true := by
  refine noContentL_of_all _ ?_
  intro e he
  rcases List.mem_map.mp he with ⟨line, _, hline⟩
  subst hline
  by_cases htrr : (SDPUtil.parseRTCPFB line).type = "trr-int"
  · rw [if_pos htrr]
    exact noContent_leaf _ _ _ (by decide)
  · rw [if_neg htrr]
    exact noContent_leaf _ _ _ (by decide)

theorem noContentL_mem {l : List Elem} {e : Elem} (h : noContentL l = true) (he : e ∈ l) :
    noContent e = true := by
  induction l with
  | nil => exact absurd he (List.not_mem_nil e)
  | cons c cs ih =>
    simp only [noContentL, Bool.and_eq_true] at h
    rcases List.mem_cons.mp he with h2 | h2
    · exact h2 ▸ h.1
    · exact ih h.2 h2

theorem noContentL_append (a b : List Elem) (ha : noContentL a = true)
    (hb : noContentL b = true) : noContentL (a ++ b) = true := by
  refine noContentL_of_all _ ?_
  intro e he
  rcases List.mem_append.mp he with h | h
  · exact noContentL_mem ha h
  · exact noContentL_mem hb h

theorem noContent_payloadElem (m format : String) :
    noContent (payloadElemFor m format) = true := by
  simp only [payloadElemFor]
  refine noContent_node _ _ _ _ (by decide) ?_
  refine noContentL_append _ _ ?_ (noContent_rtcpFb m format)
  rcases hfl : SDPUtil.findLine m ("a=fmtp:" ++ format) none with _ | l
  · simp [noContentL]
  · refine noContentL_of_all _ ?_
    intro e he
    rcases List.mem_map.mp he with ⟨kv, _, hkv⟩
    subst hkv
    exact noContent_leaf _ _ _ (by decide)

theorem noContent_ridElems (st : SDPState) (m : String) :
    noContentL (ridElemsFor st m) = true := by
  simp only [ridElemsFor]
  by_cases hc : (SDPUtil.findLines m "a=rid:" none ≠ [] && st.usesRidsForSimulcast) = true
  · rw [if_pos hc]
    refine noContentL_append _ _ ?_ ?_
    · refine noContentL_of_all _ ?_
      intro e he
      rcases List.mem_map.mp he with ⟨r, _, hr⟩
      subst hr
      exact noContent_leaf _ _ _ (by decide)
    · by_cases hsim : (SDPUtil.findLine m "a=simulcast:" none).isSome = true
      · rw [if_pos hsim]
        simp only [noContentL, Bool.and_eq_true]
        refine ⟨noContent_node _ _ _ _ (by decide) ?_, by simp [noContentL]⟩
        refine noContentL_of_all _ ?_
        intro e he
        rcases List.mem_map.mp he with ⟨r, _, hr⟩
        subst hr
        exact noContent_leaf _ _ _ (by decide)
      · rw [if_neg hsim]
        simp [noContentL]
  · rw [if_neg hc]
    simp [noContentL]

theorem noContent_descriptionElem (st : SDPState) (m mt : String) (ml : MLineData) (hs : Bool) :
    noContent (descriptionElemFor st m mt ml hs) = true := by
  simp only [descriptionElemFor]
  refine noContent_node _ _ _ _ (by decide) ?_
  refine noContentL_append _ _ ?_ ?_
  · refine noContentL_append _ _ ?_ ?_
    · refine noContentL_append _ _ ?_ ?_
      · refine noContentL_append _ _ ?_ ?_
        · refine noContentL_append _ _ ?_ ?_
          · refine noContentL_append _ _ ?_ ?_
            · refine noContentL_of_all _ ?_
              intro e he
              rcases List.mem_map.mp he with ⟨f, _, hf⟩
              subst hf
              exact noContent_payloadElem m f
            · by_cases h2 : hs = true
              · rw [if_pos h2]
                exact noContentL_append _ _ (noContent_sourceElems m) (noContent_groupElems m)
              · rw [if_neg h2]
                simp [noContentL]
          · exact noContent_ridElems st m
        · by_cases h3 : (SDPUtil.findLine m "a=rtcp-mux" none).isSome = true
          · rw [if_pos h3]
            simp only [noContentL, Bool.and_eq_true]
            exact ⟨noContent_leaf _ _ _ (by decide), by simp [noContentL]⟩
          · rw [if_neg h3]
            simp [noContentL]
      · exact noContent_rtcpFb m "*"
    · refine noContentL_of_all _ ?_
      intro e he
      rcases List.mem_map.mp he with ⟨line, _, hline⟩
      subst hline
      simp only [hdrextElemFor]
      exact noContent_leaf _ _ _ (by decide)
  · by_cases h4 : (SDPUtil.findLine m "a=extmap-allow-mixed" (some st.session)).isSome = true
    · rw [if_pos h4]
      simp only [noContentL, Bool.and_eq_true]
      exact ⟨noContent_leaf _ _ _ (by decide), by simp [noContentL]⟩
    · rw [if_neg h4]
      simp [noContentL]

theorem noContent_transportElem (st : SDPState) (m : String) :
    noContent (transportElemFor st m) = true := by
  have hsctp : noContentL (match SDPUtil.findLine m "a=sctp-port:" (some st.session) with
      | some l =>
        [Elem.mk "sctpmap" [("xmlns", XEP.SCTP_DATA_CHANNEL),
          ("number", SDPUtil.parseSCTPPort l), ("protocol", "webrtc-datachannel"),
          ("streams", "0")] [] ""]
      | none =>
        match SDPUtil.findLine m "a=sctpmap:" (some st.session) with
        | some l =>
          let sctpAttrs := SDPUtil.parseSCTPMap l
          [Elem.mk "sctpmap"
            (optAttrs [("xmlns", some XEP.SCTP_DATA_CHANNEL), ("number", sctpAttrs.head?),
              ("protocol", (sctpAttrs.drop 1).head?)]
              ++ [("streams", if 2 < sctpAttrs.length then (sctpAttrs.drop 2).headD "0" else "0")])
            [] ""]
        | none => []) = true := by
    rcases SDPUtil.findLine m "a=sctp-port:" (some st.session) with _ | l
    · rcases SDPUtil.findLine m "a=sctpmap:" (some st.session) with _ | l2
      · simp [noContentL]
      · simp only [noContentL, Bool.and_eq_true]
        exact ⟨noContent_leaf _ _ _ (by decide), by simp [noContentL]⟩
    · simp only [noContentL, Bool.and_eq_true]
      exact ⟨noContent_leaf _ _ _ (by decide), by simp [noContentL]⟩
  have hfp : noContentL ((SDPUtil.findLines m "a=fingerprint:" (some st.session)).map (fun line =>
      let fp := SDPUtil.parseFingerprint line
      Elem.mk "fingerprint"
        ([("hash", fp.hash), ("xmlns", XEP.DTLS_SRTP)]
          ++ (match SDPUtil.findLine m "a=setup:" (some st.session) with
              | some s => [("setup", sdrop s 8)]
              | none => [])) [] fp.fingerprint)) = true := by
    refine noContentL_of_all _ ?_
    intro e he
    rcases List.mem_map.mp he with ⟨line, _, hline⟩
    subst hline
    exact noContent_leaf _ _ _ (by decide)
  simp only [transportElemFor]
  rcases SDPUtil.iceparams m st.session with _ | ice
  · exact noContent_node _ _ _ _ (by decide) (noContentL_append _ _ hsctp hfp)
  · refine noContent_node _ _ _ _ (by decide) ?_
    refine noContentL_append _ _ (noContentL_append _ _ hsctp hfp) ?_
    refine noContentL_of_all _ ?_
    intro e he
    rcases List.mem_filterMap.mp he with ⟨line, _, hline⟩
    simp only [t2jCandidate] at hline
    by_cases hdrop : ((st.removeTcpCandidates
        && (sToLower (if st.failICE then
              { SDPUtil.candidateToJingle line with ip := "1.1.1.1" }
            else SDPUtil.candidateToJingle line).protocol = "tcp"
          || sToLower (if st.failICE then
              { SDPUtil.candidateToJingle line with ip := "1.1.1.1" }
            else SDPUtil.candidateToJingle line).protocol = "ssltcp"))
      || (st.removeUdpCandidates
        && sToLower (if st.failICE then
              { SDPUtil.candidateToJingle line with ip := "1.1.1.1" }
            else SDPUtil.candidateToJingle line).protocol = "udp")) = true
    · rw [if_pos hdrop] at hline
      exact absurd hline (by simp)
    · rw [if_neg hdrop] at hline
      rcases Option.some_inj.mp hline with rfl
      exact noContent_leaf _ _ _ (by decide)

theorem noContent_contentChildren (st : SDPState) (m : String) :
    noContentL (contentChildrenFor st m) = true := by
  simp only [contentChildrenFor]
  refine noContentL_append _ _ (noContentL_append _ _ ?_ ?_) ?_
  · by_cases hv : resolvedType m = "video"
    · rw [if_pos hv]
      rcases st.initialLastN with _ | n
      · simp [noContentL]
      · simp only [noContentL, Bool.and_eq_true]
        exact ⟨noContent_leaf _ _ _ (by decide), by simp [noContentL]⟩
    · rw [if_neg hv]
      simp [noContentL]
  · by_cases hav : (resolvedType m = "audio" || resolvedType m = "video") = true
    · rw [if_pos hav]
      simp only [noContentL, Bool.and_eq_true]
      exact ⟨noContent_descriptionElem _ _ _ _ _, by simp [noContentL]⟩
    · rw [if_neg hav]
      simp [noContentL]
  · simp only [noContentL, Bool.and_eq_true]
    exact ⟨noContent_transportElem st m, by simp [noContentL]⟩

theorem cnt_contentElemFor (st : SDPState) (cr m t : String) (hP2P : st.isP2P = false) :
    cntP (isCreatorContent t) (contentElemFor st cr m)
      = if resolvedType m = t then 1 else 0 := by
  have hch : cntPL (isCreatorContent t) (contentChildrenFor st m) = 0 :=
    (cnt_noContent t).2 _ (noContent_contentChildren st m)
  simp only [contentElemFor, hP2P, Bool.false_eq_true, if_false, cntP, hch, Nat.add_zero]
  by_cases hmt : resolvedType m = t
  · rw [if_pos hmt]
    have : isCreatorContent t
        (Elem.mk "content"
          ([("creator", cr), ("name", resolvedType m)]
            ++ (match sendersForMLine m st.session
                  (SDPUtil.parseMLine ((jsSplit "\r\n" m).headD "")).port with
                | some s => [("senders", s)]
                | none => [])) (contentChildrenFor st m) "") = true := by
      simp [isCreatorContent, Elem.tag, Elem.attr?, Elem.attrList, List.find?, hmt]
    rw [this, if_pos rfl]
  · rw [if_neg hmt]
    have : isCreatorContent t
        (Elem.mk "content"
          ([("creator", cr), ("name", resolvedType m)]
            ++ (match sendersForMLine m st.session
                  (SDPUtil.parseMLine ((jsSplit "\r\n" m).headD "")).port with
                | some s => [("senders", s)]
                | none => [])) (contentChildrenFor st m) "") = false := by
      simp [isCreatorContent, Elem.tag, Elem.attr?, Elem.attrList, List.find?, hmt]
    rw [this]
    simp

theorem appendChildHere_path (b : Builder) (e : Elem) :
    (b.appendChildHere e).path = b.path := rfl

theorem appendChildHere_root (b : Builder) (e : Elem) (h : b.path = []) :
    (b.appendChildHere e).root = b.root.addChildren [e] := by
  simp [Builder.appendChildHere, h, modifyAt]

theorem isCC_addChildren (t : String) (r : Elem) (cs2 : List Elem) :
    isCreatorContent t (r.addChildren cs2) = isCreatorContent t r := by
  rcases r with ⟨tg, a, cs, x⟩
  rfl

theorem cnt_groupStep_elem (t sem : String) (mediaTypes : List String) :
    cntP (isCreatorContent t)
      (Elem.mk "group" [("xmlns", XEP.BUNDLE_MEDIA), ("semantics", sem)]
        (mediaTypes.map (fun n => Elem.mk "content" [("name", n)] [] "")) "") = 0 := by
  simp only [cntP]
  rw [show isCreatorContent t
      (Elem.mk "group" [("xmlns", XEP.BUNDLE_MEDIA), ("semantics", sem)]
        (mediaTypes.map (fun n => Elem.mk "content" [("name", n)] [] "")) "") = false from by
    simp [isCreatorContent, Elem.tag]]
  simp only [Bool.false_eq_true, if_false, Nat.zero_add]
  refine cntPL_all_zero _ _ ?_
  intro e he
  rcases List.mem_map.mp he with ⟨n, _, hn⟩
  subst hn
  simp [cntP, cntPL, isCreatorContent, Elem.tag, Elem.attr?, Elem.attrList, List.find?]

theorem toJingleGroups_inv (st : SDPState) (ls : List String) :
    ∀ (b : Builder), b.path = [] →
      ((ls.foldl (toJingleGroupStep st) b).path = []
      ∧ (∀ t, isCreatorContent t ((ls.foldl (toJingleGroupStep st) b).root)
          = isCreatorContent t b.root)
      ∧ ∀ t, cntP (isCreatorContent t) ((ls.foldl (toJingleGroupStep st) b).root)
          = cntP (isCreatorContent t) b.root) := by
  induction ls with
  | nil => intro b hb; exact ⟨hb, fun t => rfl, fun t => rfl⟩
  | cons line rest ih =>
    intro b hb
    simp only [List.foldl_cons]
    have hstep_path : (toJingleGroupStep st b line).path = [] := by
      simp only [toJingleGroupStep, appendChildHere_path, hb]
    have hroot : (toJingleGroupStep st b line).root
        = b.root.addChildren [Elem.mk "group"
            [("xmlns", XEP.BUNDLE_MEDIA), ("semantics", sdrop (firstToken line) 8)]
            ((if st.isP2P then
                st.media.map (fun m =>
                  ((SDPUtil.findLine m "a=mid:" none).map SDPUtil.parseMID).getD "")
              else ["audio", "video", "data"]).map
              (fun t => Elem.mk "content" [("name", t)] [] "")) ""] := by
      simp only [toJingleGroupStep]
      exact appendChildHere_root b _ hb
    rcases ih (toJingleGroupStep st b line) hstep_path with ⟨hp, hcc, hcnt⟩
    refine ⟨hp, ?_, ?_⟩
    · intro t
      rw [hcc t, hroot, isCC_addChildren]
    · intro t
      rw [hcnt t, hroot, cnt_addChildren]
      simp only [cntPL]
      rw [cnt_groupStep_elem]
      simp [cntPL]

theorem cnt_mergeIntoContent (nm m : String) (c : Elem) :
    cntP (isCreatorContent nm)
      (mergeIntoContent (sourceElemsOf m ++ groupElemsOf m) c) = cntP (isCreatorContent nm) c := by
  have hnew : cntPL (isCreatorContent nm) (sourceElemsOf m ++ groupElemsOf m) = 0 :=
    (cnt_noContent nm).2 _
      (noContentL_append _ _ (noContent_sourceElems m) (noContent_groupElems m))
  have hf : ∀ e, (e.tag = "description" : Bool) = true →
      cntP (isCreatorContent nm) (e.addChildren (sourceElemsOf m ++ groupElemsOf m))
        = cntP (isCreatorContent nm) e := by
    intro e _
    rw [cnt_addChildren, hnew]
    omega
  rcases c with ⟨t, a, cs, x⟩
  show cntP (isCreatorContent nm)
      (Elem.mk t a (mFirstL (fun e => e.tag = "description")
        (fun d => d.addChildren (sourceElemsOf m ++ groupElemsOf m)) cs).1 x)
    = cntP (isCreatorContent nm) (Elem.mk t a cs x)
  simp only [cntP]
  rw [isCC_children_irrel nm t a _ cs x]
  rw [(cnt_mFirst_pair nm _ _ hf).2 cs]

theorem toJingleMergeStep_path (m : String) (b : Builder) :
    (toJingleMergeStep m b).path = b.path := rfl

theorem toJingleMergeStep_isCC (t m : String) (b : Builder) :
    isCreatorContent t ((toJingleMergeStep m b).root) = isCreatorContent t b.root := by
  rcases b with ⟨root, path⟩
  rcases root with ⟨tg, a, cs, x⟩
  simp only [toJingleMergeStep, mutateTreeBelow]
  rfl

theorem cnt_toJingleMergeStep (nm m : String) (b : Builder) :
    cntP (isCreatorContent nm) ((toJingleMergeStep m b).root)
      = cntP (isCreatorContent nm) b.root := by
  have hf : ∀ e, isCreatorContent (resolvedType m) e = true →
      cntP (isCreatorContent nm)
        (if ssrcTokenOf m then
            mergeIntoContent (sourceElemsOf m ++ groupElemsOf m) e
          else e) = cntP (isCreatorContent nm) e := by
    intro e _
    by_cases hs : ssrcTokenOf m = true
    · rw [if_pos hs]
      exact cnt_mergeIntoContent nm m e
    · rw [if_neg hs]
  rcases b with ⟨root, path⟩
  rcases root with ⟨tg, a, cs, x⟩
  show cntP (isCreatorContent nm)
      (Elem.mk tg a (mFirstL (isCreatorContent (resolvedType m))
        (fun c => if ssrcTokenOf m then
            mergeIntoContent (sourceElemsOf m ++ groupElemsOf m) c
          else c) cs).1 x)
    = cntP (isCreatorContent nm) (Elem.mk tg a cs x)
  simp only [cntP]
  rw [isCC_children_irrel nm tg a _ cs x]
  rw [(cnt_mFirst_pair nm _ _ hf).2 cs]

theorem mutateTreeBelow_flag (p : Elem → Bool) (f : Elem → Elem) (root : Elem) :
    (mutateTreeBelow p f root).2 = true ↔ 0 < cntPL p root.children := by
  rcases root with ⟨tg, a, cs, x⟩
  simp only [mutateTreeBelow, Elem.children]
  exact (flag_iff_cnt p f).2 cs

theorem cntPL_children_of (b : Builder) (t : String)
    (hcc : isCreatorContent t b.root = false) :
    cntPL (isCreatorContent t) b.root.children = cntP (isCreatorContent t) b.root := by
  rcases hb : b.root with ⟨tg, a, cs, x⟩
  rw [hb] at hcc
  simp only [Elem.children, cntP, hcc, Bool.false_eq_true, if_false, Nat.zero_add]

theorem toJingleUpTo_inv (st : SDPState) (cr : String) (b0 : Builder)
    (hP2P : st.isP2P = false) (hpath : b0.path = [])
    (hclean : ∀ t, cntP (isCreatorContent t) b0.root = 0) :
    ∀ k, (toJingleUpTo st cr b0 k).path = []
      ∧ (∀ t, isCreatorContent t ((toJingleUpTo st cr b0 k).root) = false)
      ∧ (∀ t, cntP (isCreatorContent t) ((toJingleUpTo st cr b0 k).root)
          = if (st.media.take k).any (fun m => resolvedType m = t) then 1 else 0) := by
  have hccb0 : ∀ t, isCreatorContent t b0.root = false := by
    intro t
    have h := hclean t
    rcases hb : b0.root with ⟨tg, a, cs, x⟩
    rw [hb] at h
    simp only [cntP] at h
    cases hcc2 : isCreatorContent t (Elem.mk tg a cs x)
    · rfl
    · rw [hcc2] at h
      simp at h
  intro k
  induction k with
  | zero =>
    rcases toJingleGroups_inv st (SDPUtil.findLines st.session "a=group:" none) b0 hpath with
      ⟨hp, hcc, hcnt⟩
    have h0 : toJingleUpTo st cr b0 0
        = (SDPUtil.findLines st.session "a=group:" none).foldl (toJingleGroupStep st) b0 := by
      simp only [toJingleUpTo, List.take_zero, List.foldl_nil, toJingleGroups]
    refine ⟨by rw [h0]; exact hp, ?_, ?_⟩
    · intro t
      rw [h0, hcc t, hccb0 t]
    · intro t
      rw [h0, hcnt t, hclean t]
      simp
  | succ k ih =>
    rcases ih with ⟨ihp, ihcc, ihcnt⟩
    by_cases hk : k < st.media.length
    · obtain ⟨mk_, hmk⟩ : ∃ mk_, st.media[k]? = some mk_ :=
        ⟨st.media[k], List.getElem?_eq_getElem hk⟩
      have htake : st.media.take (k+1) = st.media.take k ++ [mk_] := by
        rw [List.take_succ, hmk]
        rfl
      have hstep : toJingleUpTo st cr b0 (k+1)
          = toJingleStep st cr (toJingleUpTo st cr b0 k) mk_ := by
        simp only [toJingleUpTo, htake, List.foldl_append, List.foldl_cons, List.foldl_nil]
      have hany : ∀ t, ((st.media.take (k+1)).any (fun m => resolvedType m = t))
          = (((st.media.take k).any (fun m => resolvedType m = t))
            || decide (resolvedType mk_ = t)) := by
        intro t
        rw [htake]
        simp [List.any_append]
      have hchild : ∀ t, cntPL (isCreatorContent t) (toJingleUpTo st cr b0 k).root.children
          = if (st.media.take k).any (fun m => resolvedType m = t) then 1 else 0 := by
        intro t
        rw [cntPL_children_of _ t (ihcc t), ihcnt t]
      by_cases hex : ((st.media.take k).any (fun m => resolvedType m = resolvedType mk_)) = true
      · have hflag : (mutateTreeBelow (isCreatorContent (resolvedType mk_))
            (fun c => if ssrcTokenOf mk_ then
                mergeIntoContent (sourceElemsOf mk_ ++ groupElemsOf mk_) c
              else c) (toJingleUpTo st cr b0 k).root).2 = true := by
          rw [mutateTreeBelow_flag, hchild (resolvedType mk_), if_pos hex]
          omega
        have hstep2 : toJingleStep st cr (toJingleUpTo st cr b0 k) mk_
            = toJingleMergeStep mk_ (toJingleUpTo st cr b0 k) := by
          simp only [toJingleStep]
          rw [if_pos hflag]
        refine ⟨?_, ?_, ?_⟩
        · rw [hstep, hstep2, toJingleMergeStep_path, ihp]
        · intro t
          rw [hstep, hstep2, toJingleMergeStep_isCC, ihcc t]
        · intro t
          rw [hstep, hstep2, cnt_toJingleMergeStep, ihcnt t, hany t]
          by_cases ht : ((st.media.take k).any (fun m => resolvedType m = t)) = true
          · simp [ht]
          · have hne : ¬(resolvedType mk_ = t) := by
              intro heq
              rw [heq] at hex
              exact ht hex
            have ht2 : ((st.media.take k).any (fun m => resolvedType m = t)) = false := by
              cases hx : (st.media.take k).any (fun m => resolvedType m = t)
              · rfl
              · exact absurd hx ht
            simp [ht2, hne]
      · have hflag : ¬((mutateTreeBelow (isCreatorContent (resolvedType mk_))
            (fun c => if ssrcTokenOf mk_ then
                mergeIntoContent (sourceElemsOf mk_ ++ groupElemsOf mk_) c
              else c) (toJingleUpTo st cr b0 k).root).2 = true) := by
          rw [mutateTreeBelow_flag, hchild (resolvedType mk_), if_neg hex]
          omega
        have hstep2 : toJingleStep st cr (toJingleUpTo st cr b0 k) mk_
            = (toJingleUpTo st cr b0 k).appendChildHere (contentElemFor st cr mk_) := by
          simp only [toJingleStep]
          rw [if_neg hflag]
        refine ⟨?_, ?_, ?_⟩
        · rw [hstep, hstep2, appendChildHere_path, ihp]
        · intro t
          rw [hstep, hstep2, appendChildHere_root _ _ ihp, isCC_addChildren, ihcc t]
        · intro t
          rw [hstep, hstep2, appendChildHere_root _ _ ihp, cnt_addChildren, ihcnt t, hany t]
          simp only [cntPL]
          rw [cnt_contentElemFor st cr mk_ t hP2P]
          by_cases ht : ((st.media.take k).any (fun m => resolvedType m = t)) = true
          · have hne : ¬(resolvedType mk_ = t) := by
              intro heq
              rw [← heq] at ht
              exact hex ht
            simp [ht, hne]
          · have ht2 : ((st.media.take k).any (fun m => resolvedType m = t)) = false := by
              cases hx : (st.media.take k).any (fun m => resolvedType m = t)
              · rfl
              · exact absurd hx ht
            by_cases hrt : resolvedType mk_ = t
            · simp [ht2, hrt]
            · simp [ht2, hrt]
    · have htake : st.media.take (k+1) = st.media.take k := by
        rw [List.take_of_length_le (by omega), List.take_of_length_le (by omega)]
      have heq : toJingleUpTo st cr b0 (k+1) = toJingleUpTo st cr b0 k := by
        simp only [toJingleUpTo, htake]
      refine ⟨by rw [heq]; exact ihp, ?_, ?_⟩
      · intro t
        rw [heq, ihcc t]
      · intro t
        rw [heq, htake, ihcnt t]

/-- C2 as amended for the non-direct (grouped) mode: from a builder tree with
no creator contents, for every resolved media type occurring among the
sections, exactly one content element carrying a creator attribute and that
name exists in the final tree; and every section preceded by an earlier
section of the same resolved type performs exactly the merge step, which only
appends its source and grouped-source elements into the description of the
already-created content and creates no content element. -/
theorem C2_same_type_sections_merge (st : SDPState) (cr : String) (b0 : Builder)
    (hP2P : st.isP2P = false) (hpath : b0.path = [])
    (hclean : ∀ t, cntP (isCreatorContent t) b0.root = 0) :
    (∀ t, (st.media.any (fun m => resolvedType m = t)) = true →
        cntP (isCreatorContent t) ((toJingle st cr b0).root) = 1)
    ∧ ∀ (j : Nat) (mj : String), st.media[j]? = some mj →
        (∃ i mi, i < j ∧ st.media[i]? = some mi ∧ resolvedType mi = resolvedType mj) →
        toJingleUpTo st cr b0 (j+1) = toJingleMergeStep mj (toJingleUpTo st cr b0 j) := by
  constructor
  · intro t ht
    have h := (toJingleUpTo_inv st cr b0 hP2P hpath hclean st.media.length).2.2 t
    rw [List.take_length st.media] at h
    have hroot : (toJingle st cr b0).root = (toJingleUpTo st cr b0 st.media.length).root := by
      simp only [toJingle, toJingleUpTo, Builder.up, List.take_length]
    rw [hroot, h, if_pos ht]
  · intro j mj hmj hex
    rcases hex with ⟨i, mi, hij, hmi, hrt⟩
    rcases toJingleUpTo_inv st cr b0 hP2P hpath hclean j with ⟨hp, hcc, hcnt⟩
    have hmem : mi ∈ st.media.take j := by
      have h2 : (st.media.take j)[i]? = some mi := by
        rw [List.getElem?_take, if_pos hij, hmi]
      exact List.getElem?_mem h2
    have hany : ((st.media.take j).any (fun m => resolvedType m = resolvedType mj)) = true := by
      rw [List.any_eq_true]
      exact ⟨mi, hmem, by simp [hrt]⟩
    have hflag : (mutateTreeBelow (isCreatorContent (resolvedType mj))
        (fun c => if ssrcTokenOf mj then
            mergeIntoContent (sourceElemsOf mj ++ groupElemsOf mj) c
          else c) (toJingleUpTo st cr b0 j).root).2 = true := by
      rw [mutateTreeBelow_flag, cntPL_children_of _ _ (hcc (resolvedType mj)),
        hcnt (resolvedType mj), if_pos hany]
      omega
    have hj : j < st.media.length := by
      rcases List.getElem?_eq_some.mp hmj with ⟨h, _⟩
      exact h
    obtain ⟨mk2, hmk2⟩ : ∃ mk2, st.media[j]? = some mk2 := ⟨mj, hmj⟩
    have htake : st.media.take (j+1) = st.media.take j ++ [mj] := by
      rw [List.take_succ, hmj]
      rfl
    have hstep : toJingleUpTo st cr b0 (j+1)
        = toJingleStep st cr (toJingleUpTo st cr b0 j) mj := by
      simp only [toJingleUpTo, htake, List.foldl_append, List.foldl_cons, List.foldl_nil]
    rw [hstep]
    simp only [toJingleStep]
    rw [if_pos hflag]

/-- Counterexample for C2: in direct-connection mode two sections of the same
resolved media type produce two creator-stamped content elements, because the
merge lookup searches by media type while contents are named by mid; the
second section does create a new content element. -/
theorem C2_counterexample :
    resolvedType exC2m0 = resolvedType exC2m1
    ∧ cntP (fun e => e.tag = "content" && (e.attr? "creator").isSome)
        ((toJingle exC2p2p "initiator" exC2b0).root) = 2 := by
  constructor
  · decide
  · decide

/-- Witness for the amended C2 at the concrete grouped-mode state: one video
content in the final tree, and the second video section performs exactly the
merge step. -/
theorem C2_same_type_sections_merge_witness :
    cntP (isCreatorContent "video") ((toJingle exC2 "initiator" exC2b0).root) = 1
    ∧ toJingleUpTo exC2 "initiator" exC2b0 2
        = toJingleMergeStep exC2m1 (toJingleUpTo exC2 "initiator" exC2b0 1) :=
  ⟨(C2_same_type_sections_merge exC2 "initiator" exC2b0 rfl rfl
      (fun t => by simp [exC2b0, cntP, cntPL, isCreatorContent, Elem.tag])).1 "video" (by decide),
   (C2_same_type_sections_merge exC2 "initiator" exC2b0 rfl rfl
      (fun t => by simp [exC2b0, cntP, cntPL, isCreatorContent, Elem.tag])).2 1 exC2m1
      (by decide) ⟨0, exC2m0, by decide, by decide, by decide⟩⟩
